import Mathlib

/-!
# Samflix media-scanning pipeline: a shallow embedding

This file embeds the media scanning and reconciliation pipeline of the
samflix backend in Lean:

* the filename parser (`parser.service.ts`): cascading JavaScript regex
  pattern lists for movie and episode names, title cleanup, quality-tag
  extraction;
* the scanner service (`scanner.service.ts`): directory walking, catalog
  existence checks, TMDB-driven upserts, scanning-conflict bookkeeping,
  orphan cleanup, and the progress stream of `scanAll`.

JavaScript regular expressions are modelled by a small backtracking engine
over `List Char` whose result ordering matches JavaScript's backtracking
priority (lazy quantifiers try fewer iterations first, greedy ones more,
alternatives left to right) and whose capture semantics are
last-iteration-wins.  JavaScript numbers holding `NaN` are modelled as
`Option Int` with `none` for `NaN`.  `Date` values are represented by their
source strings.  The Prisma store is modelled as in-memory lists with a
fresh-id counter; store operations are total (store-level I/O failures are
out of scope), while filesystem enumeration and TMDB calls are fallible.
-/

namespace Samflix

/-! ## JavaScript character classes and string primitives -/

/-- Line terminators, which JavaScript regex `.` does not match. -/
def isLineTerm (c : Char) : Bool :=
  c = '\n' || c = '\r' || c = ' ' || c = ' '

/-- The whitespace class of JavaScript regex `\s` (ASCII part plus NBSP and BOM). -/
def isWsChar (c : Char) : Bool :=
  c = ' ' || c = '\t' || c = '\n' || c = '\r' || c = '\x0b' || c = '\x0c' ||
  c = ' ' || c = '﻿'

/-- ASCII decimal digit test (JavaScript regex `\d`). -/
def isDigitChar (c : Char) : Bool :=
  '0' ≤ c && c ≤ '9'

/-- Character classes appearing in the repository's patterns. -/
inductive CClass where
  /-- `.` — any character except a line terminator. -/
  | any
  /-- `\d` -/
  | digit
  /-- `\s` -/
  | ws
  /-- a literal character -/
  | chr (c : Char)
  /-- a literal character under the `i` flag -/
  | chrCI (c : Char)
  /-- a set of literal characters, e.g. `[Ss]` -/
  | oneOf (cs : List Char)
  /-- `\s` together with literal characters, e.g. `[\s.\-_]` -/
  | wsOr (cs : List Char)
  deriving DecidableEq

def CClass.test : CClass → Char → Bool
  | .any, c => !isLineTerm c
  | .digit, c => isDigitChar c
  | .ws, c => isWsChar c
  | .chr d, c => c = d
  | .chrCI d, c => c.toLower = d.toLower
  | .oneOf ds, c => ds.contains c
  | .wsOr ds, c => isWsChar c || ds.contains c

/-- Regular-expression ASTs covering the repository's patterns.  `^` is
implicit (matching always starts at the position under test); `$` is the
explicit zero-width assertion `eos`. -/
inductive Re where
  | eps
  | cls (c : CClass)
  | seq (a b : Re)
  | alt (a b : Re)
  /-- capturing group `i` (non-capturing groups are plain `seq`) -/
  | grp (i : Nat) (r : Re)
  /-- repetition with `lo` mandatory iterations and optional maximum `hi`;
  `lz` selects lazy (fewest-first) ordering -/
  | rep (lo : Nat) (hi : Option Nat) (lz : Bool) (r : Re)
  | eos
  deriving DecidableEq

/-- Captures recorded along a match path: group index paired with captured
characters.  Entries nearer the head are more recent, so lookup realizes
JavaScript's last-iteration-wins capture semantics; a group with no entry is
`undefined`. -/
abbrev Caps := List (Nat × List Char)

/-- Iterate a repetition body.  An iteration that consumes nothing ends the
loop (matching JavaScript, whose engines stop repeating on an empty match;
every repetition body in the repository's patterns consumes input anyway).
`fuel` only bounds the iteration count and is supplied as more than the
input length, which progress makes sufficient. -/
def mrep (body : List Char → Caps → List (List Char × Caps)) :
    Nat → Nat → Option Nat → Bool → List Char → Caps → List (List Char × Caps)
  | 0, _, _, _, _, _ => []
  | fuel + 1, lo, hi, lz, cs, k =>
    let stop : List (List Char × Caps) := if lo = 0 then [(cs, k)] else []
    let go : List (List Char × Caps) :=
      if hi = some 0 then []
      else
        (body cs k).flatMap fun p =>
          if p.1.length < cs.length then
            mrep body fuel (lo - 1) (hi.map (· - 1)) lz p.1 p.2
          else []
    if lz then stop ++ go else go ++ stop

/-- All ways `r` can match a prefix of `cs`, each as (remaining input,
captures), in JavaScript backtracking priority order: the head is the match
JavaScript commits to. -/
def mmatch : Re → List Char → Caps → List (List Char × Caps)
  | .eps, cs, k => [(cs, k)]
  | .cls _, [], _ => []
  | .cls c, ch :: rest, k => if c.test ch then [(rest, k)] else []
  | .seq a b, cs, k => (mmatch a cs k).flatMap fun p => mmatch b p.1 p.2
  | .alt a b, cs, k => mmatch a cs k ++ mmatch b cs k
  | .grp i r, cs, k =>
    (mmatch r cs k).map fun p => (p.1, (i, cs.take (cs.length - p.1.length)) :: p.2)
  | .rep lo hi lz r, cs, k => mrep (mmatch r) (cs.length + 1) lo hi lz cs k
  | .eos, cs, k => if cs.isEmpty then [(cs, k)] else []

/-- `str.match(re)` for a pattern anchored on both sides (`^...$`): the
first backtracking result consuming the whole input, as its captures. -/
def fullMatch (r : Re) (cs : List Char) : Option Caps :=
  ((mmatch r cs []).find? fun p => p.1.isEmpty).map (·.2)

/-- Capture group `i` of a match result (`none` = `undefined`). -/
def capture (k : Caps) (i : Nat) : Option String :=
  (k.find? fun p => p.1 == i).map fun p => String.mk p.2

/-- The match JavaScript commits to at the current position, if any, as
(consumed characters, remaining input). -/
def firstMatchAt (r : Re) (cs : List Char) : Option (List Char × List Char) :=
  (mmatch r cs []).head?.map fun p => (cs.take (cs.length - p.1.length), p.1)

/-- `str.match(re)` with the `g` flag: the list of full match texts,
scanning left to right and resuming after each match (advancing one
character past an empty match, as JavaScript does). -/
def gMatches (r : Re) : Nat → List Char → List (List Char)
  | 0, _ => []
  | fuel + 1, cs =>
    match firstMatchAt r cs with
    | some (m, rest) =>
      if m.isEmpty then
        match cs with
        | [] => [m]
        | _ :: cs' => m :: gMatches r fuel cs'
      else m :: gMatches r fuel rest
    | none =>
      match cs with
      | [] => []
      | _ :: cs' => gMatches r fuel cs'

/-- `str.replace(re, repl)` without the `g` flag: replace the leftmost
match.  `anch` records whether the pattern begins with `^` (in which case
only the start position is tried). -/
def replaceFirst (r : Re) (anch : Bool) (repl : List Char) : Nat → List Char → List Char
  | 0, cs => cs
  | fuel + 1, cs =>
    match firstMatchAt r cs with
    | some (_, rest) => repl ++ rest
    | none =>
      if anch then cs
      else
        match cs with
        | [] => []
        | c :: cs' => c :: replaceFirst r anch repl fuel cs'

/-- `str.replace(re, repl)` with the `g` flag: replace every match, left to
right, resuming after each replacement. -/
def replaceAll (r : Re) (repl : List Char) : Nat → List Char → List Char
  | 0, cs => cs
  | fuel + 1, cs =>
    match firstMatchAt r cs with
    | some (m, rest) =>
      if m.isEmpty then
        match cs with
        | [] => repl
        | c :: cs' => repl ++ c :: replaceAll r repl fuel cs'
      else repl ++ replaceAll r repl fuel rest
    | none =>
      match cs with
      | [] => []
      | c :: cs' => c :: replaceAll r repl fuel cs'

/-- Sequence a list of regex pieces. -/
def rseq (rs : List Re) : Re := rs.foldr .seq .eps

/-- A literal string piece. -/
def rlit (s : String) : Re := rseq (s.data.map fun c => .cls (.chr c))

/-- A literal string piece under the `i` flag. -/
def rlitCI (s : String) : Re := rseq (s.data.map fun c => .cls (.chrCI c))

/-! ## JavaScript number and string helpers -/

/-- Numeric value of a digit run. -/
def digitsVal (cs : List Char) : Int :=
  cs.foldl (fun a c => a * 10 + (c.toNat - '0'.toNat : Int)) 0

/-- `parseInt(s)`: skip leading whitespace, optional sign, then leading
decimal digits; `NaN` (here `none`) when no digits follow. -/
def jsParseInt (s : String) : Option Int :=
  let cs := s.data.dropWhile fun c => isWsChar c
  let (sign, cs) : Int × List Char :=
    match cs with
    | '-' :: rest => (-1, rest)
    | '+' :: rest => (1, rest)
    | _ => (1, cs)
  let ds := cs.takeWhile isDigitChar
  if ds.isEmpty then none else some (sign * digitsVal ds)

/-- `parseInt` applied to a possibly-`undefined` string (`undefined` parses
to `NaN`). -/
def jsParseIntOpt : Option String → Option Int
  | none => none
  | some s => jsParseInt s

/-- JavaScript truthiness of a number modelled as `Option Int` (`NaN` and
`0` are falsy). -/
def numTruthy : Option Int → Bool
  | none => false
  | some n => n ≠ 0

/-- JavaScript truthiness of a possibly-absent string. -/
def strTruthy : Option String → Bool
  | none => false
  | some s => s ≠ ""

/-- `x || undefined` for a string: `none` when empty or absent. -/
def presentNonempty : Option String → Option String
  | none => none
  | some s => if s = "" then none else some s

/-- ASCII `toLowerCase`. -/
def lowerStr (s : String) : String := String.mk (s.data.map Char.toLower)

/-- `trim()`: strip leading and trailing JavaScript whitespace. -/
def jsTrim (cs : List Char) : List Char :=
  ((cs.dropWhile fun c => isWsChar c).reverse.dropWhile fun c => isWsChar c).reverse

/-! ## Node `path` helpers (POSIX) -/

/-- Index of the last occurrence of `c`, if any. -/
def lastIdxOf (c : Char) (cs : List Char) : Option Nat :=
  cs.reverse.findIdx? (· = c) |>.map fun i => cs.length - 1 - i

/-- `path.basename(p)`: the part after the last `/`. -/
def basenameRaw (p : String) : String :=
  match lastIdxOf '/' p.data with
  | none => p
  | some i => String.mk (p.data.drop (i + 1))

/-- `path.extname(p)`: from the last `.` of the basename, unless that dot
leads the basename (dotfiles) or the basename is `..`. -/
def extname (p : String) : String :=
  let b := basenameRaw p
  if b = ".." then ""
  else
    match lastIdxOf '.' b.data with
    | none => ""
    | some 0 => ""
    | some i => String.mk (b.data.drop i)

/-- `path.basename(p, ext)`: basename with a trailing `ext` stripped (kept
whole when the basename is exactly `ext`). -/
def basenameExt (p ext : String) : String :=
  let b := basenameRaw p
  if ext ≠ "" && b ≠ ext && ext.data.isSuffixOf b.data then
    String.mk (b.data.take (b.data.length - ext.data.length))
  else b

/-- `path.dirname(p)` (for the paths the walker builds). -/
def dirname (p : String) : String :=
  match lastIdxOf '/' p.data with
  | none => "."
  | some 0 => "/"
  | some i => String.mk (p.data.take i)

/-- `path.join(dir, name)` (for the walker's simple two-argument joins). -/
def joinPath (dir name : String) : String :=
  if dir = "" then name
  else if dir.data.getLast? = some '/' then dir ++ name
  else dir ++ "/" ++ name

/-! ## The filename parser (`parser.service.ts`)

Each pattern below transliterates one JavaScript regex from
`ParserService`, with its capture-group numbering. -/

/-- `\s*` -/
def wsStar : Re := .rep 0 none false (.cls .ws)

/-- `\s+` -/
def wsPlus : Re := .rep 1 none false (.cls .ws)

/-- `(.+?)` as group `i` -/
def lazyPlusAny (i : Nat) : Re := .grp i (.rep 1 none true (.cls .any))

/-- `(.*)` as group `i` -/
def starAnyGrp (i : Nat) : Re := .grp i (.rep 0 none false (.cls .any))

/-- `(.*?)` as group `i` -/
def lazyStarAnyGrp (i : Nat) : Re := .grp i (.rep 0 none true (.cls .any))

/-- `(\d{m,n})` as group `i` -/
def digitsGrp (i m n : Nat) : Re := .grp i (.rep m (some n) false (.cls .digit))

/-- `[\s.\-_]` -/
def sepCls : CClass := .wsOr ['.', '-', '_']

/-- `[\s.\-_]+` -/
def sepPlus : Re := .rep 1 none false (.cls sepCls)

/-- `[\s.\-_]*` -/
def sepStar : Re := .rep 0 none false (.cls sepCls)

/-- Movie pattern 1: `^(.+?)\s*\((\d{4})\)\s*(?:\[(.*?)\]\s*)*(.*)$` -/
def moviePat1 : Re :=
  rseq [lazyPlusAny 1, wsStar, .cls (.chr '('), digitsGrp 2 4 4, .cls (.chr ')'), wsStar,
    .rep 0 none false (rseq [.cls (.chr '['), lazyStarAnyGrp 3, .cls (.chr ']'), wsStar]),
    starAnyGrp 4, .eos]

/-- Movie pattern 2: `^(.+?)[\s.]+(\d{4})[\s.]+(.*)$` -/
def moviePat2 : Re :=
  rseq [lazyPlusAny 1, .rep 1 none false (.cls (.wsOr ['.'])), digitsGrp 2 4 4,
    .rep 1 none false (.cls (.wsOr ['.'])), starAnyGrp 3, .eos]

/-- Movie pattern 3: `^(.+?)\s*(?:\[(.*?)\]\s*)+(.*)$` -/
def moviePat3 : Re :=
  rseq [lazyPlusAny 1, wsStar,
    .rep 1 none false (rseq [.cls (.chr '['), lazyStarAnyGrp 2, .cls (.chr ']'), wsStar]),
    starAnyGrp 3, .eos]

/-- Movie pattern 4: `^(.+?)\s*\((.*?)\)\s*(.*)$` -/
def moviePat4 : Re :=
  rseq [lazyPlusAny 1, wsStar, .cls (.chr '('), lazyStarAnyGrp 2, .cls (.chr ')'), wsStar,
    starAnyGrp 3, .eos]

/-- Movie pattern 5 (fallback): `^(.+?)$` -/
def moviePat5 : Re := rseq [lazyPlusAny 1, .eos]

/-- The ordered movie pattern list of `ParserService.movieRegexPatterns`. -/
def movieRegexPatterns : List Re := [moviePat1, moviePat2, moviePat3, moviePat4, moviePat5]

/-- Episode pattern 1: `^(.+?)[\s.\-_]+[Ss](\d{1,2})[\s.\-_]+[Ee](\d{1,2})[\s.\-_]*(.*)$` -/
def epPat1 : Re :=
  rseq [lazyPlusAny 1, sepPlus, .cls (.oneOf ['S', 's']), digitsGrp 2 1 2, sepPlus,
    .cls (.oneOf ['E', 'e']), digitsGrp 3 1 2, sepStar, starAnyGrp 4, .eos]

/-- Episode pattern 2a: `^(.+?)[\s.\-_]+[Ss](\d{1,2})[Ee](\d{1,2})[\s.\-_]+(.*)$` -/
def epPat2a : Re :=
  rseq [lazyPlusAny 1, sepPlus, .cls (.oneOf ['S', 's']), digitsGrp 2 1 2,
    .cls (.oneOf ['E', 'e']), digitsGrp 3 1 2, sepPlus, starAnyGrp 4, .eos]

/-- Episode pattern 2b: `^(.+?)[\s.\-_]+[Ss](\d{1,2})[Ee](\d{1,2})[\s.\-_]*$` -/
def epPat2b : Re :=
  rseq [lazyPlusAny 1, sepPlus, .cls (.oneOf ['S', 's']), digitsGrp 2 1 2,
    .cls (.oneOf ['E', 'e']), digitsGrp 3 1 2, sepStar, .eos]

/-- Episode pattern 3a: `^(.+?)[\s.\-_]+(\d{1,2})[xX](\d{1,2})[\s.\-_]+(.*)$` -/
def epPat3a : Re :=
  rseq [lazyPlusAny 1, sepPlus, digitsGrp 2 1 2, .cls (.oneOf ['x', 'X']),
    digitsGrp 3 1 2, sepPlus, starAnyGrp 4, .eos]

/-- Episode pattern 3b: `^(.+?)[\s.\-_]+(\d{1,2})[xX](\d{1,2})[\s.\-_]*$` -/
def epPat3b : Re :=
  rseq [lazyPlusAny 1, sepPlus, digitsGrp 2 1 2, .cls (.oneOf ['x', 'X']),
    digitsGrp 3 1 2, sepStar, .eos]

/-- Episode pattern 4: `^(.+?)[\s.\-_]+(\d{2,3})[vV]\d*[\s.\-_]+(.*)$` -/
def epPat4 : Re :=
  rseq [lazyPlusAny 1, sepPlus, digitsGrp 2 2 3, .cls (.oneOf ['v', 'V']),
    .rep 0 none false (.cls .digit), sepPlus, starAnyGrp 3, .eos]

/-- Episode pattern 5: `^(.+?)[\s.\-_]+(\d{2,3})[\s.\-_]+(.*)$` -/
def epPat5 : Re :=
  rseq [lazyPlusAny 1, sepPlus, digitsGrp 2 2 3, sepPlus, starAnyGrp 3, .eos]

/-- Episode pattern 6a: `^(.+?)[\s.\-_]+[Ss](\d{1,2})[Ee](\d{1,2})$` -/
def epPat6a : Re :=
  rseq [lazyPlusAny 1, sepPlus, .cls (.oneOf ['S', 's']), digitsGrp 2 1 2,
    .cls (.oneOf ['E', 'e']), digitsGrp 3 1 2, .eos]

/-- Episode pattern 6b: `^(.+?)[\s.\-_]+(\d{1,2})[xX](\d{1,2})$` -/
def epPat6b : Re :=
  rseq [lazyPlusAny 1, sepPlus, digitsGrp 2 1 2, .cls (.oneOf ['x', 'X']),
    digitsGrp 3 1 2, .eos]

/-- The ordered episode pattern list of `ParserService.episodeRegexPatterns`. -/
def episodeRegexPatterns : List Re :=
  [epPat1, epPat2a, epPat2b, epPat3a, epPat3b, epPat4, epPat5, epPat6a, epPat6b]

/-- `/\[(.*?)\]/` (used globally to harvest quality tags). -/
def bracketTagRe : Re := rseq [.cls (.chr '['), lazyStarAnyGrp 1, .cls (.chr ']')]

/-- `ParsedMovie` of `media.types.ts` (`year` is `Option Int`, `none` = `NaN`). -/
structure ParsedMovie where
  fileName : String
  filePath : String
  title : String
  year : Option Int
  resolution : Option String
  quality : Option String
  rip : Option String
  sound : Option String
  provider : Option String
  deriving DecidableEq

/-- `ParsedEpisode` of `media.types.ts`. -/
structure ParsedEpisode where
  fileName : String
  filePath : String
  seriesName : String
  seasonNumber : Option Int
  episodeNumber : Option Int
  resolution : Option String
  quality : Option String
  rip : Option String
  sound : Option String
  provider : Option String
  deriving DecidableEq

/-- `ParserService.cleanTitle`:
`title.replace(/\./g, ' ').replace(/_/g, ' ').replace(/\s+/g, ' ').trim()`.
The three global single-class replaces are rendered directly on characters. -/
def cleanTitle (s : String) : String :=
  let step1 := s.data.map fun c => if c = '.' then ' ' else c
  let step2 := step1.map fun c => if c = '_' then ' ' else c
  let step3 := collapseWs false step2
  String.mk (jsTrim step3)
where
  /-- `replace(/\s+/g, ' ')`: each maximal whitespace run becomes one space
  (the flag tracks whether the previous character was whitespace). -/
  collapseWs : Bool → List Char → List Char
  | _, [] => []
  | inRun, c :: cs =>
    if isWsChar c then
      if inRun then collapseWs true cs else ' ' :: collapseWs true cs
    else c :: collapseWs false cs

/-- First pattern in the list that matches, with its captures
(`fileName.match(pattern)` tried in order). -/
def firstPatternMatch (pats : List Re) (cs : List Char) : Option Caps :=
  match pats with
  | [] => none
  | p :: ps =>
    match fullMatch p cs with
    | some k => some k
    | none => firstPatternMatch ps cs

/-- `ParserService.parseMovie`. -/
def parseMovie (filePath : String) : Option ParsedMovie :=
  let fileName := basenameExt filePath (extname filePath)
  match firstPatternMatch movieRegexPatterns fileName.data with
  | none => none
  | some caps =>
    some
      { fileName := fileName
        filePath := filePath
        title := cleanTitle ((capture caps 1).getD "")
        year := jsParseIntOpt (capture caps 2)
        resolution := presentNonempty (some ((capture caps 3).getD ""))
        quality := presentNonempty (some ((capture caps 4).getD ""))
        rip := presentNonempty (some ((capture caps 5).getD ""))
        sound := presentNonempty (some ((capture caps 6).getD ""))
        provider := presentNonempty (some ((capture caps 7).getD "")) }

/-- `[` and `]` stripped (`.replace(/[[\]]/g, '')`). -/
def stripBrackets (s : String) : String :=
  String.mk (s.data.filter fun c => !(c = '[' || c = ']'))

/-- `ParserService.parseEpisode`. -/
def parseEpisode (filePath : String) : Option ParsedEpisode :=
  let fileName := basenameExt filePath (extname filePath)
  match firstPatternMatch episodeRegexPatterns fileName.data with
  | none => none
  | some caps =>
    let qualityMatch := (gMatches bracketTagRe (fileName.data.length + 1) fileName.data).map
      String.mk
    let tag := fun i =>
      presentNonempty (some (stripBrackets ((qualityMatch.get? i).getD "")))
    some
      { fileName := fileName
        filePath := filePath
        seriesName := cleanTitle ((capture caps 1).getD "")
        seasonNumber := jsParseIntOpt (capture caps 2)
        episodeNumber := jsParseIntOpt (capture caps 3)
        resolution := tag 0
        quality := tag 1
        rip := tag 2
        sound := tag 3
        provider := tag 4 }

/-! ## TMDB payloads (`media.types.ts`)

Floating-point payloads (`vote_average`) are carried as `Int`: no claim
computes with them, they are only stored and compared. `Date` values are
represented by the source strings they are constructed from. -/

structure Genre where
  id : Int
  name : String
  deriving DecidableEq

structure TMDBMovieResult where
  id : Int
  title : String
  overview : String
  release_date : String
  poster_path : Option String
  backdrop_path : Option String
  genres : List Genre
  runtime : Int
  vote_average : Int
  deriving DecidableEq

structure TMDBTVResult where
  id : Int
  name : String
  overview : String
  first_air_date : String
  last_air_date : String
  poster_path : Option String
  backdrop_path : Option String
  genres : List Genre
  status : String
  deriving DecidableEq

structure TMDBEpisodeResult where
  id : Int
  name : String
  overview : String
  air_date : Option String
  episode_number : Int
  season_number : Int
  deriving DecidableEq

/-- `new Date(s).getFullYear()` for the ISO `YYYY-MM-DD` strings TMDB
serves; `none` (`NaN`) when the string does not start with four digits. -/
def jsDateYear (s : String) : Option Int :=
  let ds := s.data.take 4
  if ds.length = 4 && ds.all isDigitChar then some (digitsVal ds) else none

/-! ## Catalog records and store state -/

inductive MediaKind where
  | movie
  | series
  deriving DecidableEq

/-- A candidate stored in a conflict's `possibleMatches` JSON blob. -/
inductive Candidate where
  | movie (r : TMDBMovieResult)
  | tv (r : TMDBTVResult)
  deriving DecidableEq

structure Movie where
  id : Nat
  tmdbId : Int
  title : String
  year : Option Int
  overview : String
  posterPath : Option String
  backdropPath : Option String
  genres : List String
  runtime : Int
  rating : Int
  filePath : String
  fileName : String
  resolution : Option String
  quality : Option String
  rip : Option String
  sound : Option String
  provider : Option String
  releaseDate : String
  deriving DecidableEq

structure TvSeries where
  id : Nat
  tmdbId : Int
  title : String
  overview : String
  posterPath : Option String
  backdropPath : Option String
  genres : List String
  firstAirDate : String
  lastAirDate : String
  status : String
  deriving DecidableEq

structure Episode where
  id : Nat
  tmdbId : Int
  title : String
  overview : String
  filePath : String
  fileName : String
  resolution : Option String
  quality : Option String
  rip : Option String
  sound : Option String
  provider : Option String
  seasonNumber : Int
  episodeNumber : Int
  airDate : Option String
  seriesId : Nat
  deriving DecidableEq

structure ScanningConflict where
  id : Nat
  fileName : String
  filePath : String
  mediaType : MediaKind
  possibleMatches : List Candidate
  resolved : Bool
  selectedId : Option Int
  deriving DecidableEq

/-- The Prisma store: row lists in insertion order plus a fresh-id counter
(standing for cuid generation). -/
structure DB where
  movies : List Movie
  series : List TvSeries
  episodes : List Episode
  conflicts : List ScanningConflict
  nextId : Nat
  deriving DecidableEq

def emptyDB : DB := ⟨[], [], [], [], 0⟩

/-! ## External collaborators -/

/-- A TMDB call failure; `responseStatus`/`status` model
`error.response?.status` and `error.status`. -/
structure HErr where
  responseStatus : Option Int
  status : Option Int
  deriving DecidableEq

/-- A filesystem entry below a scanned root.  A directory node carries the
outcome of `readdir` on it: `ok = false` means enumeration of that
directory throws `err`. -/
inductive FSNode where
  | file (name : String)
  | dir (name : String) (ok : Bool) (children : List FSNode) (err : String)

/-- The outcome of `readdir` on a configured root path. -/
structure Listing where
  ok : Bool
  children : List FSNode
  err : String

/-- The world a scan runs against: the filesystem at the scanned roots,
disk existence, and the TMDB service.  All are fixed functions, so the
environment is unchanged between two runs. -/
structure Env where
  readdir : String → Listing
  fileExists : String → Bool
  searchMovie : String → Option Int → Except HErr (List TMDBMovieResult)
  searchTV : String → Except HErr (List TMDBTVResult)
  getMovieDetails : Int → Except HErr TMDBMovieResult
  getTVDetails : Int → Except HErr TMDBTVResult
  getEpisodeDetails : Int → Option Int → Option Int → Except HErr TMDBEpisodeResult

/-- `tmdbService.searchMovie(query, year?)` adds the year parameter only
when truthy. -/
def tmdbSearchMovie (env : Env) (title : String) (year : Option Int) :
    Except HErr (List TMDBMovieResult) :=
  env.searchMovie title (if numTruthy year then year else none)

/-- `err.response?.status === 404 || err.status === 404`. -/
def HErr.is404 (e : HErr) : Bool :=
  e.responseStatus == some 404 || e.status == some 404

/-! ## The directory walker (`ScannerService.getMediaFiles`) -/

def supportedExtensions : List String := [".mp4", ".mkv", ".avi"]

mutual

/-- Collect media files below one entry of a directory listing. -/
def mediaFilesOfNode (dirPath : String) : FSNode → Except String (List String)
  | .file name =>
    .ok (if supportedExtensions.contains (lowerStr (extname name)) then
          [joinPath dirPath name]
        else [])
  | .dir name ok children err =>
    if ok then mediaFilesOfChildren (joinPath dirPath name) children else .error err

/-- Collect media files across a directory listing, in listing order; a
failing subdirectory aborts the whole walk (the source has no guard). -/
def mediaFilesOfChildren (dirPath : String) : List FSNode → Except String (List String)
  | [] => .ok []
  | n :: ns => do
    let a ← mediaFilesOfNode dirPath n
    let b ← mediaFilesOfChildren dirPath ns
    .ok (a ++ b)

end

/-- `ScannerService.getMediaFiles`: recursive walk from a configured root,
keeping files with a supported extension (lower-cased `extname`). -/
def getMediaFiles (env : Env) (directoryPath : String) : Except String (List String) :=
  let l := env.readdir directoryPath
  if l.ok then mediaFilesOfChildren directoryPath l.children else .error l.err

/-! ## Store queries and writes -/

/-- The regex escaping applied before the Prisma `contains` query
(`title.replace(/[.*+?^${}()|[\]\\]/g, '\\$&')`).  Prisma `contains`
is a literal substring test, so the inserted backslashes become part of the
needle. -/
def regexEscape (s : String) : String :=
  String.mk (s.data.flatMap fun c =>
    if ['.', '*', '+', '?', '^', '$', '\x7b', '\x7d', '(', ')', '|', '[', ']', '\\'].contains c
    then ['\\', c] else [c])

/-- Substring occurrence test over character lists. -/
def substringIn (needle : List Char) : List Char → Bool
  | [] => needle.isEmpty
  | c :: cs => needle.isPrefixOf (c :: cs) || substringIn needle cs

/-- Prisma `contains` with `mode: 'insensitive'`. -/
def containsCI (hay needle : String) : Bool :=
  substringIn (lowerStr needle).data (lowerStr hay).data

/-- `ScannerService.isMovieInDatabase`: by `filePath`, then `fileName`,
then case-insensitive title containment (plus year when truthy). -/
def isMovieInDatabase (db : DB) (fileName filePath title : String) (year : Option Int) : Bool :=
  if (db.movies.find? fun m => m.filePath == filePath).isSome then true
  else if (db.movies.find? fun m => m.fileName == fileName).isSome then true
  else
    let sanitizedTitle := regexEscape title
    (db.movies.find? fun m =>
      containsCI m.title sanitizedTitle &&
      (if numTruthy year then m.year == year else true)).isSome

/-- `ScannerService.isEpisodeInDatabase`: by `filePath`, then `fileName`,
then series-title containment with season/episode equality.  A `NaN`
season or episode number makes the relational query throw inside the
`try`, which returns `false`. -/
def isEpisodeInDatabase (db : DB) (fileName filePath seriesName : String)
    (seasonNumber episodeNumber : Option Int) : Bool :=
  if (db.episodes.find? fun e => e.filePath == filePath).isSome then true
  else if (db.episodes.find? fun e => e.fileName == fileName).isSome then true
  else
    match seasonNumber, episodeNumber with
    | some sn, some en =>
      let sanitizedSeriesName := regexEscape seriesName
      (db.episodes.find? fun e =>
        (match db.series.find? fun sr => sr.id == e.seriesId with
         | some sr => containsCI sr.title sanitizedSeriesName
         | none => false) &&
        e.seasonNumber == sn && e.episodeNumber == en).isSome
    | _, _ => false

/-- `ScannerService.createScanningConflict`: update the first conflict
sharing `filePath` (refreshing `fileName`/`possibleMatches` and resetting
`resolved`), otherwise insert a new unresolved conflict. -/
def createScanningConflict (db : DB) (mediaType : MediaKind) (fileName filePath : String)
    (possibleMatches : List Candidate) : DB :=
  match db.conflicts.find? fun c => c.filePath == filePath with
  | some existing =>
    { db with conflicts := db.conflicts.map fun c =>
        if c.id == existing.id then
          { c with fileName := fileName, possibleMatches := possibleMatches, resolved := false }
        else c }
  | none =>
    { db with
      conflicts := db.conflicts ++
        [{ id := db.nextId, fileName := fileName, filePath := filePath,
           mediaType := mediaType, possibleMatches := possibleMatches,
           resolved := false, selectedId := none }]
      nextId := db.nextId + 1 }

/-- The `update` record of the movie upsert in `scanMovieDirectory`: the
file-binding fields from the parse, plus `releaseDate` from the TMDB
details. -/
def movieUpdateData (m : Movie) (d : TMDBMovieResult) (p : ParsedMovie) : Movie :=
  { m with
    filePath := p.filePath
    fileName := p.fileName
    resolution := p.resolution
    quality := p.quality
    rip := p.rip
    sound := p.sound
    provider := p.provider
    releaseDate := d.release_date }

/-- The `create` record of the movie upsert in `scanMovieDirectory`. -/
def movieCreateData (db : DB) (d : TMDBMovieResult) (p : ParsedMovie) : Movie :=
  { id := db.nextId
    tmdbId := d.id
    title := d.title
    year := jsDateYear d.release_date
    overview := d.overview
    posterPath := d.poster_path
    backdropPath := d.backdrop_path
    genres := d.genres.map (·.name)
    runtime := d.runtime
    rating := d.vote_average
    filePath := p.filePath
    fileName := p.fileName
    resolution := p.resolution
    quality := p.quality
    rip := p.rip
    sound := p.sound
    provider := p.provider
    releaseDate := d.release_date }

/-- `prisma.movie.upsert({ where: { tmdbId } })`. -/
def movieUpsert (db : DB) (d : TMDBMovieResult) (p : ParsedMovie) : DB :=
  match db.movies.find? fun m => m.tmdbId == d.id with
  | some m =>
    { db with movies := db.movies.map fun m2 =>
        if m2.id == m.id then movieUpdateData m2 d p else m2 }
  | none =>
    { db with movies := db.movies ++ [movieCreateData db d p], nextId := db.nextId + 1 }

/-- The `create` record of the series upsert. -/
def seriesCreateData (db : DB) (d : TMDBTVResult) : TvSeries :=
  { id := db.nextId
    tmdbId := d.id
    title := d.name
    overview := d.overview
    posterPath := d.poster_path
    backdropPath := d.backdrop_path
    genres := d.genres.map (·.name)
    firstAirDate := d.first_air_date
    lastAirDate := d.last_air_date
    status := d.status }

/-- `prisma.tvSeries.upsert({ where: { tmdbId }, update: {} })`: the update
path changes nothing; the returned id is the matched or created row's. -/
def tvSeriesUpsert (db : DB) (d : TMDBTVResult) : DB × Nat :=
  match db.series.find? fun s => s.tmdbId == d.id with
  | some s => (db, s.id)
  | none =>
    ({ db with series := db.series ++ [seriesCreateData db d], nextId := db.nextId + 1 },
     db.nextId)

/-- The `data` record of the episode update in `scanSeriesDirectory`: only
the file-binding fields. -/
def episodeUpdateData (e : Episode) (p : ParsedEpisode) : Episode :=
  { e with
    filePath := p.filePath
    fileName := p.fileName
    resolution := p.resolution
    quality := p.quality
    rip := p.rip
    sound := p.sound
    provider := p.provider }

/-- The `episodeData` record built in `scanSeriesDirectory` for creation. -/
def episodeCreateData (db : DB) (ed : TMDBEpisodeResult) (p : ParsedEpisode)
    (seriesId : Nat) : Episode :=
  { id := db.nextId
    tmdbId := ed.id
    title := ed.name
    overview := ed.overview
    filePath := p.filePath
    fileName := p.fileName
    resolution := p.resolution
    quality := p.quality
    rip := p.rip
    sound := p.sound
    provider := p.provider
    seasonNumber := ed.season_number
    episodeNumber := ed.episode_number
    airDate := if strTruthy ed.air_date then ed.air_date else none
    seriesId := seriesId }

/-! ## Per-file movie processing (`scanMovieDirectory` loop body) -/

/-- The body of the movie loop up to the per-file `try` boundary: a
returned `error` is the exception reaching the per-file handler.  All
throwing operations precede the single terminal store write. -/
def processMovieFileCore (env : Env) (db : DB) (file : String) : Except HErr DB :=
  match parseMovie file with
  | none => .ok (createScanningConflict db .movie (basenameRaw file) file [])
  | some parsedMovie =>
    if isMovieInDatabase db parsedMovie.fileName parsedMovie.filePath
        parsedMovie.title parsedMovie.year then
      .ok db
    else
      match tmdbSearchMovie env parsedMovie.title parsedMovie.year with
      | .error e => .error e
      | .ok searchResults =>
        match searchResults with
        | [] =>
          .ok (createScanningConflict db .movie parsedMovie.fileName parsedMovie.filePath [])
        | [r] =>
          match env.getMovieDetails r.id with
          | .error e => .error e
          | .ok movieDetails => .ok (movieUpsert db movieDetails parsedMovie)
        | rs =>
          .ok (createScanningConflict db .movie parsedMovie.fileName parsedMovie.filePath
            (rs.map .movie))

/-- One movie file with its enclosing `try`/`catch`: an error is logged and
the loop continues with the store untouched (no write precedes a throw). -/
def processMovieFile (env : Env) (db : DB) (file : String) : DB :=
  match processMovieFileCore env db file with
  | .ok db' => db'
  | .error _ => db

/-- `ScannerService.scanMovieDirectory`. -/
def scanMovieDirectory (env : Env) (db : DB) (directoryPath : String) : Except String DB :=
  match getMediaFiles env directoryPath with
  | .error e => .error e
  | .ok files => .ok (files.foldl (processMovieFile env) db)

/-- The parseable-episode flow up to the per-file `try` boundary.  The 404
branch of the inner `catch` records a conflict with an empty candidate list
and continues; any other episode-lookup failure is re-thrown (the returned
`error`).  No store write precedes a possible throw. -/
def processEpisodeParsed (env : Env) (db : DB) (parsedEpisode : ParsedEpisode) :
    Except HErr DB :=
  if isEpisodeInDatabase db parsedEpisode.fileName parsedEpisode.filePath
      parsedEpisode.seriesName parsedEpisode.seasonNumber parsedEpisode.episodeNumber then
    .ok db
  else
    match env.searchTV parsedEpisode.seriesName with
    | .error e => .error e
    | .ok searchResults =>
      match searchResults with
      | [] =>
        .ok (createScanningConflict db .series parsedEpisode.fileName
          parsedEpisode.filePath [])
      | [r] =>
        match env.getTVDetails r.id with
        | .error e => .error e
        | .ok seriesDetails =>
          match env.getEpisodeDetails r.id parsedEpisode.seasonNumber
              parsedEpisode.episodeNumber with
          | .error episodeError =>
            if episodeError.is404 then
              .ok (createScanningConflict db .series parsedEpisode.fileName
                parsedEpisode.filePath [])
            else .error episodeError
          | .ok episodeDetails =>
            let su := tvSeriesUpsert db seriesDetails
            let db := su.1
            match db.episodes.find? fun e =>
                e.tmdbId == episodeDetails.id &&
                e.seasonNumber == episodeDetails.season_number &&
                e.episodeNumber == episodeDetails.episode_number with
            | some existingEpisode =>
              .ok { db with episodes := db.episodes.map fun e2 =>
                  if e2.id == existingEpisode.id then episodeUpdateData e2 parsedEpisode
                  else e2 }
            | none =>
              .ok { db with
                episodes := db.episodes ++
                  [episodeCreateData db episodeDetails parsedEpisode su.2]
                nextId := db.nextId + 1 }
      | rs =>
        .ok (createScanningConflict db .series parsedEpisode.fileName
          parsedEpisode.filePath (rs.map .tv))

/-- One episode file inside the loop: unparseable files are grouped by
parent directory (JavaScript `Map` insertion order), parseable files run
the flow with its `catch` swallowing errors. -/
def seriesScanStep (env : Env) (acc : DB × List (String × List String)) (file : String) :
    DB × List (String × List String) :=
  match parseEpisode file with
  | none =>
    let seriesFolder := dirname file
    let groups := acc.2
    if groups.any fun g => g.1 == seriesFolder then
      (acc.1, groups.map fun g => if g.1 == seriesFolder then (g.1, g.2 ++ [file]) else g)
    else (acc.1, groups ++ [(seriesFolder, [file])])
  | some parsedEpisode =>
    match processEpisodeParsed env acc.1 parsedEpisode with
    | .ok db' => (db', acc.2)
    | .error _ => (acc.1, acc.2)

/-! ## Series-name extraction for grouped unparseable files -/

/-- `/\.(mkv|mp4|avi)$/i` -/
def extRemoveRe : Re :=
  rseq [.cls (.chr '.'),
    .grp 1 (.alt (rlitCI "mkv") (.alt (rlitCI "mp4") (rlitCI "avi"))), .eos]

/-- `/[\s.\-_]+[Ss]\d{1,2}.*$/i` -/
def seasonMarkerRe : Re :=
  rseq [sepPlus, .cls (.oneOf ['S', 's']), .rep 1 (some 2) false (.cls .digit),
    .rep 0 none false (.cls .any), .eos]

/-- `/\s*\(\d{4}\).*$/i` -/
def parenYearRe : Re :=
  rseq [wsStar, .cls (.chr '('), .rep 4 (some 4) false (.cls .digit), .cls (.chr ')'),
    .rep 0 none false (.cls .any), .eos]

/-- `/\s+\d{4}\s+.*$/i` -/
def bareYearRe : Re :=
  rseq [wsPlus, .rep 4 (some 4) false (.cls .digit), wsPlus,
    .rep 0 none false (.cls .any), .eos]

/-- `/\s+(1080p|720p|480p|2160p|4K|WEBRip|WEB-DL|BluRay|BRRip|HDRip|DVDRip).*$/i` -/
def qualityWordRe : Re :=
  rseq [wsPlus,
    .grp 1 (raltList (["1080p", "720p", "480p", "2160p", "4K", "WEBRip", "WEB-DL",
      "BluRay", "BRRip", "HDRip", "DVDRip"].map rlitCI)),
    .rep 0 none false (.cls .any), .eos]
where
  raltList : List Re → Re
    | [] => .eps
    | [r] => r
    | r :: rs => .alt r (raltList rs)

/-- `/\s+(Hindi|English|Tamil|Telugu|Malayalam|Kannada|Bengali)\s*/gi` -/
def languageWordRe : Re :=
  rseq [wsPlus,
    .grp 1 (qualityWordRe.raltList (["Hindi", "English", "Tamil", "Telugu", "Malayalam",
      "Kannada", "Bengali"].map rlitCI)),
    wsStar]

/-- `/^The\s+/i` -/
def leadingTheRe : Re := rseq [rlitCI "The", wsPlus]

/-- `/\s+(Series|Show|Season)$/i` -/
def trailingKindRe : Re :=
  rseq [wsPlus, .grp 1 (qualityWordRe.raltList (["Series", "Show", "Season"].map rlitCI)),
    .eos]

/-- One unanchored single-replace pass (`replace` without `g`). -/
def replace1 (r : Re) (repl : String) (s : String) : String :=
  String.mk (replaceFirst r false repl.data (s.data.length + 1) s.data)

/-- `ScannerService.extractSeriesNameFromFolder`. -/
def extractSeriesNameFromFolder (folderName : String) : String :=
  let name := replace1 extRemoveRe "" folderName
  let name := replace1 seasonMarkerRe "" name
  let name := replace1 parenYearRe "" name
  let name := replace1 bareYearRe "" name
  let name := replace1 qualityWordRe "" name
  let name := String.mk (name.data.map fun c => if c = '.' || c = '_' then ' ' else c)
  let name := String.mk (cleanTitle.collapseWs false name.data)
  String.mk (jsTrim name.data)

/-- `ScannerService.cleanSeriesNameForSearch`. -/
def cleanSeriesNameForSearch (seriesName : String) : String :=
  let cleaned := String.mk (replaceAll languageWordRe " ".data
    (seriesName.data.length + 1) seriesName.data)
  let cleaned := String.mk (replaceFirst leadingTheRe true "".data
    (cleaned.data.length + 1) cleaned.data)
  let cleaned := replace1 trailingKindRe "" cleaned
  let cleaned := String.mk (cleanTitle.collapseWs false cleaned.data)
  String.mk (jsTrim cleaned.data)

/-- Process one group of unparseable files: extract a series name from the
folder name, search TMDB (with one cleaned-name retry when the first search
returns nothing; a thrown search leaves the last assigned result list), and
record a grouped conflict keyed on the group's first file. -/
def processUnparseableGroup (env : Env) (db : DB) (g : String × List String) : DB :=
  let seriesFolderName := basenameRaw g.1
  let extractedSeriesName := extractSeriesNameFromFolder seriesFolderName
  let searchResults : List TMDBTVResult :=
    match env.searchTV extractedSeriesName with
    | .error _ => []
    | .ok rs =>
      if rs.length = 0 then
        let cleanedName := cleanSeriesNameForSearch extractedSeriesName
        if cleanedName ≠ extractedSeriesName then
          match env.searchTV cleanedName with
          | .error _ => rs
          | .ok rs2 => rs2
        else rs
      else rs
  createScanningConflict db .series
    (seriesFolderName ++ " (" ++ toString g.2.length ++ " episodes)")
    (g.2.headD "") (searchResults.map .tv)

/-- `ScannerService.scanSeriesDirectory`. -/
def scanSeriesDirectory (env : Env) (db : DB) (directoryPath : String) : Except String DB :=
  match getMediaFiles env directoryPath with
  | .error e => .error e
  | .ok files =>
    let st := files.foldl (seriesScanStep env) (db, [])
    .ok (st.2.foldl (processUnparseableGroup env) st.1)

/-! ## Progress events -/

/-- The `details` payloads passed to the progress callback. -/
inductive PDetail where
  | dirInfo (path : String) (current total : Nat)
  | removal (current total : Nat) (title : String)
  | summary (removedMovies removedEpisodes removedSeries : Nat)
  deriving DecidableEq

/-- One `reportProgress(status, progress, details?)` call. -/
structure ProgressEvent where
  status : String
  progress : Nat
  details : Option PDetail
  deriving DecidableEq

structure ScanSummary where
  removedMovies : Nat
  removedEpisodes : Nat
  removedSeries : Nat
  deriving DecidableEq

/-! ## Orphan cleanup (`cleanupOrphanedEntries` and helpers)

The disk is sampled at two instants: `snapDisk` when the missing lists are
computed, `delDisk` when each removal re-checks existence.  `scanAll` uses
the same disk function for both. -/

/-- `ScannerService.isFileExistsOnDisk` (`fs.existsSync`). -/
def isFileExistsOnDisk (disk : String → Bool) (filePath : String) : Bool :=
  disk filePath

/-- `ScannerService.checkForDeletedMovies`. -/
def checkForDeletedMovies (disk : String → Bool) (db : DB) : List Movie :=
  db.movies.filter fun movie =>
    movie.filePath != "" && !isFileExistsOnDisk disk movie.filePath

/-- `ScannerService.checkForDeletedEpisodes`. -/
def checkForDeletedEpisodes (disk : String → Bool) (db : DB) : List Episode :=
  db.episodes.filter fun episode =>
    episode.filePath != "" && !isFileExistsOnDisk disk episode.filePath

/-- `ScannerService.removeDeletedMovie`: re-fetch the row, refuse when its
file is present on disk again, delete otherwise. -/
def removeDeletedMovie (disk : String → Bool) (db : DB) (movieId : Nat) :
    Except String DB :=
  match db.movies.find? fun m => m.id == movieId with
  | none => .error "Movie not found"
  | some movie =>
    if movie.filePath != "" && isFileExistsOnDisk disk movie.filePath then
      .error "Movie file still exists on disk"
    else
      .ok { db with movies := db.movies.filter fun m => !(m.id == movieId) }

/-- `ScannerService.removeDeletedEpisode`. -/
def removeDeletedEpisode (disk : String → Bool) (db : DB) (episodeId : Nat) :
    Except String DB :=
  match db.episodes.find? fun e => e.id == episodeId with
  | none => .error "Episode not found"
  | some episode =>
    if episode.filePath != "" && isFileExistsOnDisk disk episode.filePath then
      .error "Episode file still exists on disk"
    else
      .ok { db with episodes := db.episodes.filter fun e => !(e.id == episodeId) }

/-- The movie-removal `for` loop, with `i` the loop counter and `total` the
snapshot length: a progress event per candidate, removal failures logged
and skipped. -/
def cleanupMoviesLoopAux (delDisk : String → Bool) (total : Nat) :
    DB → Nat → List Movie → DB × List ProgressEvent
  | db, _, [] => (db, [])
  | db, i, m :: ms =>
    let ev : ProgressEvent :=
      ⟨"Removing orphaned movies", 80 + (i * 5) / total,
        some (.removal (i + 1) total m.title)⟩
    let db' := match removeDeletedMovie delDisk db m.id with
      | .ok d => d
      | .error _ => db
    let rest := cleanupMoviesLoopAux delDisk total db' (i + 1) ms
    (rest.1, ev :: rest.2)

def cleanupMoviesLoop (delDisk : String → Bool) (db : DB) (missing : List Movie) :
    DB × List ProgressEvent :=
  cleanupMoviesLoopAux delDisk missing.length db 0 missing

/-- The episode-removal `for` loop. -/
def cleanupEpisodesLoopAux (delDisk : String → Bool) (total : Nat) :
    DB → Nat → List Episode → DB × List ProgressEvent
  | db, _, [] => (db, [])
  | db, i, e :: es =>
    let ev : ProgressEvent :=
      ⟨"Removing orphaned episodes", 85 + (i * 5) / total,
        some (.removal (i + 1) total e.title)⟩
    let db' := match removeDeletedEpisode delDisk db e.id with
      | .ok d => d
      | .error _ => db
    let rest := cleanupEpisodesLoopAux delDisk total db' (i + 1) es
    (rest.1, ev :: rest.2)

def cleanupEpisodesLoop (delDisk : String → Bool) (db : DB) (missing : List Episode) :
    DB × List ProgressEvent :=
  cleanupEpisodesLoopAux delDisk missing.length db 0 missing

/-- The empty-series removal `for` loop (`prisma.tvSeries.delete` per series). -/
def removeEmptySeriesLoopAux (total : Nat) :
    DB → Nat → List TvSeries → DB × List ProgressEvent
  | db, _, [] => (db, [])
  | db, i, s :: ss =>
    let ev : ProgressEvent :=
      ⟨"Removing empty TV series", 90 + (i * 5) / total,
        some (.removal (i + 1) total s.title)⟩
    let db' := { db with series := db.series.filter fun s2 => !(s2.id == s.id) }
    let rest := removeEmptySeriesLoopAux total db' (i + 1) ss
    (rest.1, ev :: rest.2)

def removeEmptySeriesLoop (db : DB) (empty : List TvSeries) : DB × List ProgressEvent :=
  removeEmptySeriesLoopAux empty.length db 0 empty

/-- `ScannerService.cleanupOrphanedEntries`: missing movies, then missing
episodes, then series left with no episodes; returns the removal summary
and the emitted progress events. -/
def cleanupOrphanedEntries (snapDisk delDisk : String → Bool) (db : DB) :
    DB × ScanSummary × List ProgressEvent :=
  let missingMovies := checkForDeletedMovies snapDisk db
  let stM := cleanupMoviesLoop delDisk db missingMovies
  let missingEpisodes := checkForDeletedEpisodes snapDisk stM.1
  let stE := cleanupEpisodesLoop delDisk stM.1 missingEpisodes
  let emptySeries := stE.1.series.filter fun s =>
    !(stE.1.episodes.any fun e => e.seriesId == s.id)
  let stS := removeEmptySeriesLoop stE.1 emptySeries
  (stS.1,
   ⟨missingMovies.length, missingEpisodes.length, emptySeries.length⟩,
   [⟨"Checking for deleted movies", 80, none⟩] ++ stM.2 ++
   [⟨"Checking for deleted episodes", 85, none⟩] ++ stE.2 ++
   [⟨"Checking for empty TV series", 90, none⟩] ++ stS.2 ++
   [⟨"Cleanup completed", 95, none⟩])

/-- `ScannerService.deleteResolvedConflicts`. -/
def deleteResolvedConflicts (db : DB) : DB :=
  { db with conflicts := db.conflicts.filter fun c => !c.resolved }

/-! ## `scanAll` -/

structure ScannerConfig where
  moviePaths : List String
  seriesPaths : List String
  fileExtensions : List String

instance {ε α : Type} [DecidableEq ε] [DecidableEq α] : DecidableEq (Except ε α) := fun x y =>
  match x, y with
  | .ok a, .ok b =>
    if h : a = b then isTrue (by rw [h]) else isFalse (fun hx => by cases hx; exact h rfl)
  | .error a, .error b =>
    if h : a = b then isTrue (by rw [h]) else isFalse (fun hx => by cases hx; exact h rfl)
  | .ok _, .error _ => isFalse (fun hx => by cases hx)
  | .error _, .ok _ => isFalse (fun hx => by cases hx)

/-- The outcome of a `scanAll` call: the store (writes before a thrown
error persist), the progress events emitted, and the returned summary or
the propagated error. -/
structure ScanOutcome where
  db : DB
  trace : List ProgressEvent
  result : Except String ScanSummary
  deriving DecidableEq

/-- Fold a directory-scanning function over folder paths, emitting the
per-folder progress event before each scan and aborting on the first
enumeration error (the source has no per-folder guard). `i` is the running
`completedPaths` counter. -/
def foldFolders (scan : DB → String → Except String DB)
    (mkEv : Nat → String → ProgressEvent) :
    DB → Nat → List String → DB × List ProgressEvent × Option String
  | db, _, [] => (db, [], none)
  | db, i, p :: ps =>
    let ev := mkEv i p
    match scan db p with
    | .error e => (db, [ev], some e)
    | .ok db' =>
      let rest := foldFolders scan mkEv db' (i + 1) ps
      (rest.1, ev :: rest.2.1, rest.2.2)

/-- `ScannerService.scanAll`: scan movie folders, then series folders, then
orphan cleanup, then resolved-conflict cleanup, reporting progress
throughout; any escaping error is logged and re-thrown. -/
def scanAll (env : Env) (config : ScannerConfig) (db0 : DB) : ScanOutcome :=
  let totalPaths := config.moviePaths.length + config.seriesPaths.length
  let startEv : ProgressEvent := ⟨"Starting media scan", 0, none⟩
  let mlen := config.moviePaths.length
  let stM := foldFolders (scanMovieDirectory env)
    (fun i p => ⟨"Scanning movie directory", (i * 70) / totalPaths,
      some (.dirInfo p (i + 1) mlen)⟩)
    db0 0 config.moviePaths
  match stM.2.2 with
  | some e => { db := stM.1, trace := startEv :: stM.2.1, result := .error e }
  | none =>
    let stS := foldFolders (scanSeriesDirectory env)
      (fun i p => ⟨"Scanning series directory", (i * 70) / totalPaths,
        some (.dirInfo p (i - mlen + 1) config.seriesPaths.length)⟩)
      stM.1 mlen config.seriesPaths
    match stS.2.2 with
    | some e =>
      { db := stS.1, trace := startEv :: (stM.2.1 ++ stS.2.1), result := .error e }
    | none =>
      let orphanEv : ProgressEvent := ⟨"Checking for orphaned media entries", 75, none⟩
      let stC := cleanupOrphanedEntries env.fileExists env.fileExists stS.1
      let conflictEv : ProgressEvent := ⟨"Cleaning up resolved conflicts", 95, none⟩
      let db4 := deleteResolvedConflicts stC.1
      let doneEv : ProgressEvent :=
        ⟨"Media scan and cleanup completed", 100,
          some (.summary stC.2.1.removedMovies stC.2.1.removedEpisodes
            stC.2.1.removedSeries)⟩
      { db := db4
        trace := startEv :: (stM.2.1 ++ stS.2.1 ++ [orphanEv] ++ stC.2.2 ++
          [conflictEv, doneEv])
        result := .ok stC.2.1 }

/-! ## Concrete fixtures for witnesses and counterexamples -/

/-- A TMDB movie detail record. -/
def tmdbM0 : TMDBMovieResult :=
  ⟨7, "Zeta", "ov", "1999-01-01", none, none, [], 100, 7⟩

/-- A TMDB movie detail record whose release date differs from `mov0`'s
stored one. -/
def tmdbM1 : TMDBMovieResult :=
  ⟨7, "Zeta", "ov", "1983-06-25", none, none, [], 100, 7⟩

/-- A catalog movie row. -/
def mov0 : Movie :=
  ⟨1, 7, "Zeta", some 1999, "ov", none, none, [], 100, 7, "/m/Old.mkv", "Old",
    none, none, none, none, none, "1982-06-25"⟩

/-- A parsed movie file. -/
def pm0 : ParsedMovie :=
  ⟨"New", "/m/New.mkv", "New", some 1999, none, none, none, none, none⟩

/-- A catalog series row. -/
def ser0 : TvSeries :=
  ⟨3, 21, "Some Show", "ov", none, none, [], "2001-01-01", "2002-01-01", "Ended"⟩

/-- A TMDB series result matching `ser0`'s external id. -/
def tmdbTV0 : TMDBTVResult :=
  ⟨21, "Some Show", "ov", "2001-01-01", "2002-01-01", none, none, [], "Ended"⟩

/-- A store containing just `ser0`. -/
def dbSer : DB := ⟨[], [ser0], [], [], 10⟩

/-- A catalog episode row. -/
def ep0 : Episode :=
  ⟨4, 31, "Pilot", "ov", "/s/Old.mkv", "Old", none, none, none, none, none,
    1, 1, none, 3⟩

/-- A parsed episode file. -/
def pe0 : ParsedEpisode :=
  ⟨"NewEp", "/s/NewEp.mkv", "Some Show", some 1, some 1, none, none, none, none, none⟩

/-- The environment of the idempotence counterexample: one movie folder
holding `Alpha.mkv` and `Beta.mkv`, both of whose parsed titles resolve to
the single TMDB movie `tmdbM0` (id 7), whose catalog title `"Zeta"`
fuzzy-matches neither. -/
def envC3 : Env :=
  { readdir := fun p =>
      if p = "/m" then ⟨true, [.file "Alpha.mkv", .file "Beta.mkv"], ""⟩
      else ⟨false, [], "ENOENT"⟩
    fileExists := fun p => p = "/m/Alpha.mkv" || p = "/m/Beta.mkv"
    searchMovie := fun t _ => if t = "Alpha" || t = "Beta" then .ok [tmdbM0] else .ok []
    searchTV := fun _ => .ok []
    getMovieDetails := fun i => if i = 7 then .ok tmdbM0 else .error ⟨none, some 500⟩
    getTVDetails := fun _ => .error ⟨none, some 500⟩
    getEpisodeDetails := fun _ _ _ => .error ⟨none, some 404⟩ }

/-- The environment of the folder-failure counterexample: enumerating
`/bad` throws, `/m` holds an indexable movie file. -/
def envC5 : Env :=
  { envC3 with
    readdir := fun p =>
      if p = "/bad" then ⟨false, [], "EIO"⟩
      else if p = "/m" then ⟨true, [.file "Alpha.mkv"], ""⟩
      else ⟨false, [], "ENOENT"⟩ }

def cfgC5 : ScannerConfig := ⟨["/bad", "/m"], [], [".mp4", ".mkv", ".avi"]⟩

/-- The same configuration with only the healthy folder. -/
def cfgC5b : ScannerConfig := ⟨["/m"], [], [".mp4", ".mkv", ".avi"]⟩

end Samflix

namespace Samflix

/-! ## Claim theorems -/

/-- C7: `parseEpisode` yields season 1, episode 2 for `"Show S01 E02"`
(space-separated markers, pattern 1), `"Show.S01E02.Title"` and
`"Show S01E02"` (joined markers); the `SxxEyy` rules fire before the bare
two/three-digit rule, so the season is present and the episode is 2, never
season-absent/episode 1. -/
theorem c7_sxxeyy_agreement :
    (parseEpisode "Show S01 E02").map (fun p => (p.seasonNumber, p.episodeNumber)) =
      some (some 1, some 2) ∧
    (parseEpisode "Show.S01E02.Title").map (fun p => (p.seasonNumber, p.episodeNumber)) =
      some (some 1, some 2) ∧
    (parseEpisode "Show S01E02").map (fun p => (p.seasonNumber, p.episodeNumber)) =
      some (some 1, some 2) := by
  refine ⟨?_, ?_, ?_⟩ <;> decide

/-- C2 counterexample: the movie upsert's update path does not leave
`releaseDate` unchanged — updating `mov0` (stored releaseDate 1982-06-25)
with details carrying release date 1983-06-25 rewrites the field, so the
claim that re-scan updates touch only the seven binding fields is false. -/
theorem c2_counterexample_releaseDate_overwritten :
    (movieUpdateData mov0 tmdbM1 pm0).releaseDate ≠ mov0.releaseDate := by decide

/-- C2 (amended): on re-scan, the movie upsert's update path rewrites
exactly the file-binding fields (filePath, fileName, resolution, quality,
rip, sound, provider) *and* `releaseDate` (from the resolver details),
leaving title, year, overview, artwork, genres, runtime and rating
unchanged; the episode update rewrites only the seven binding fields; the
series upsert's update path changes nothing. -/
theorem c2_update_frame :
    (∀ (m : Movie) (d : TMDBMovieResult) (p : ParsedMovie),
      (movieUpdateData m d p).id = m.id ∧
      (movieUpdateData m d p).tmdbId = m.tmdbId ∧
      (movieUpdateData m d p).title = m.title ∧
      (movieUpdateData m d p).year = m.year ∧
      (movieUpdateData m d p).overview = m.overview ∧
      (movieUpdateData m d p).posterPath = m.posterPath ∧
      (movieUpdateData m d p).backdropPath = m.backdropPath ∧
      (movieUpdateData m d p).genres = m.genres ∧
      (movieUpdateData m d p).runtime = m.runtime ∧
      (movieUpdateData m d p).rating = m.rating ∧
      (movieUpdateData m d p).filePath = p.filePath ∧
      (movieUpdateData m d p).fileName = p.fileName ∧
      (movieUpdateData m d p).resolution = p.resolution ∧
      (movieUpdateData m d p).quality = p.quality ∧
      (movieUpdateData m d p).rip = p.rip ∧
      (movieUpdateData m d p).sound = p.sound ∧
      (movieUpdateData m d p).provider = p.provider ∧
      (movieUpdateData m d p).releaseDate = d.release_date) ∧
    (∀ (e : Episode) (p : ParsedEpisode),
      (episodeUpdateData e p).id = e.id ∧
      (episodeUpdateData e p).tmdbId = e.tmdbId ∧
      (episodeUpdateData e p).title = e.title ∧
      (episodeUpdateData e p).overview = e.overview ∧
      (episodeUpdateData e p).seasonNumber = e.seasonNumber ∧
      (episodeUpdateData e p).episodeNumber = e.episodeNumber ∧
      (episodeUpdateData e p).airDate = e.airDate ∧
      (episodeUpdateData e p).seriesId = e.seriesId ∧
      (episodeUpdateData e p).filePath = p.filePath ∧
      (episodeUpdateData e p).fileName = p.fileName ∧
      (episodeUpdateData e p).resolution = p.resolution ∧
      (episodeUpdateData e p).quality = p.quality ∧
      (episodeUpdateData e p).rip = p.rip ∧
      (episodeUpdateData e p).sound = p.sound ∧
      (episodeUpdateData e p).provider = p.provider) ∧
    (∀ (db : DB) (d : TMDBTVResult) (s : TvSeries),
      db.series.find? (fun s2 => s2.tmdbId == d.id) = some s →
      tvSeriesUpsert db d = (db, s.id)) := by
  refine ⟨fun m d p => ?_, fun e p => ?_, fun db d s h => ?_⟩
  · exact ⟨rfl, rfl, rfl, rfl, rfl, rfl, rfl, rfl, rfl, rfl, rfl, rfl, rfl, rfl, rfl,
      rfl, rfl, rfl⟩
  · exact ⟨rfl, rfl, rfl, rfl, rfl, rfl, rfl, rfl, rfl, rfl, rfl, rfl, rfl, rfl, rfl⟩
  · simp only [tvSeriesUpsert, h]

/-- C2 witness: the amended frame property applied at concrete inputs. -/
theorem c2_update_frame_witness :
    (movieUpdateData mov0 tmdbM1 pm0).title = mov0.title ∧
    (episodeUpdateData ep0 pe0).seriesId = ep0.seriesId ∧
    tvSeriesUpsert dbSer tmdbTV0 = (dbSer, 3) := by
  refine ⟨(c2_update_frame.1 mov0 tmdbM1 pm0).2.2.1,
    (c2_update_frame.2.1 ep0 pe0).2.2.2.2.2.2.2.1,
    c2_update_frame.2.2 dbSer tmdbTV0 ser0 (by decide)⟩

/-! ### Shared list lemmas -/

theorem filter_map_of_pred_eq {α : Type} (P : α → Bool) (g : α → α)
    (h : ∀ x, P (g x) = P x) (l : List α) :
    (l.map g).filter P = (l.filter P).map g := by
  induction l with
  | nil => rfl
  | cons a t ih =>
    by_cases ha : P a
    · simp [List.filter_cons, h a, ha, ih]
    · simp [List.filter_cons, h a, ha, ih]

theorem find?_of_filter_singleton {α : Type} {P : α → Bool} {l : List α} {c : α}
    (h : l.filter P = [c]) : l.find? P = some c := by
  induction l with
  | nil => simp at h
  | cons a t ih =>
    by_cases ha : P a
    · rw [List.filter_cons_of_pos ha] at h
      obtain ⟨h1, h2⟩ := List.cons.inj h
      rw [List.find?_cons_of_pos _ ha, h1]
    · rw [List.filter_cons_of_neg ha] at h
      rw [List.find?_cons_of_neg _ ha]
      exact ih h

theorem eq_singleton_of_short {α : Type} {l : List α} {c : α}
    (hlen : l.length ≤ 1) (hmem : c ∈ l) : l = [c] := by
  match l, hmem with
  | [a], hmem =>
    simp at hmem
    rw [hmem]
  | a :: b :: t, _ => simp at hlen

/-- `createScanningConflict` reduced on the no-existing-conflict branch. -/
theorem createScanningConflict_none (db : DB) (k : MediaKind) (fn fp : String)
    (ms : List Candidate)
    (h : db.conflicts.find? (fun c => c.filePath == fp) = none) :
    createScanningConflict db k fn fp ms =
      { db with
        conflicts := db.conflicts ++ [⟨db.nextId, fn, fp, k, ms, false, none⟩]
        nextId := db.nextId + 1 } := by
  simp only [createScanningConflict, h]

/-- `createScanningConflict` reduced on the refresh branch. -/
theorem createScanningConflict_some (db : DB) (k : MediaKind) (fn fp : String)
    (ms : List Candidate) (c0 : ScanningConflict)
    (h : db.conflicts.find? (fun c => c.filePath == fp) = some c0) :
    createScanningConflict db k fn fp ms =
      { db with conflicts := db.conflicts.map fun c =>
          if c.id == c0.id then
            { c with fileName := fn, possibleMatches := ms, resolved := false }
          else c } := by
  simp only [createScanningConflict, h]

/-- C4: after any two `createScanningConflict` calls for the same
`filePath` (starting from a store holding at most one conflict for that
path), exactly one conflict row carries that path, and it is unresolved
with the second call's `fileName` and `possibleMatches`. -/
theorem c4_conflict_dedup (db : DB) (k1 k2 : MediaKind) (fn1 fn2 fp : String)
    (ms1 ms2 : List Candidate)
    (hone : (db.conflicts.filter fun c => c.filePath == fp).length ≤ 1) :
    ((createScanningConflict (createScanningConflict db k1 fn1 fp ms1) k2 fn2 fp
        ms2).conflicts.filter (fun c => c.filePath == fp)).length = 1 ∧
    ∃ c, (createScanningConflict (createScanningConflict db k1 fn1 fp ms1) k2 fn2 fp
        ms2).conflicts.find? (fun c => c.filePath == fp) = some c ∧
      c.resolved = false ∧ c.fileName = fn2 ∧ c.possibleMatches = ms2 := by
  have step1 : ∃ c1, (createScanningConflict db k1 fn1 fp ms1).conflicts.filter
      (fun c => c.filePath == fp) = [c1] := by
    cases hfind : db.conflicts.find? (fun c => c.filePath == fp) with
    | none =>
      have hnil : db.conflicts.filter (fun c => c.filePath == fp) = [] := by
        rw [List.filter_eq_nil_iff]
        intro a ha
        have := List.find?_eq_none.mp hfind a ha
        simpa using this
      refine ⟨⟨db.nextId, fn1, fp, k1, ms1, false, none⟩, ?_⟩
      rw [createScanningConflict_none db k1 fn1 fp ms1 hfind]
      simp only [List.filter_append, hnil]
      simp
    | some c0 =>
      have hc0P := List.find?_some hfind
      have hc0mem : c0 ∈ db.conflicts := List.mem_of_find?_eq_some hfind
      have hsing : db.conflicts.filter (fun c => c.filePath == fp) = [c0] :=
        eq_singleton_of_short hone (List.mem_filter.mpr ⟨hc0mem, hc0P⟩)
      refine ⟨{ c0 with fileName := fn1, possibleMatches := ms1, resolved := false }, ?_⟩
      rw [createScanningConflict_some db k1 fn1 fp ms1 c0 hfind]
      rw [filter_map_of_pred_eq _ _ (fun x => by by_cases hx : x.id == c0.id <;> simp [hx]),
        hsing]
      simp
  obtain ⟨c1, hc1⟩ := step1
  have hfind1 : (createScanningConflict db k1 fn1 fp ms1).conflicts.find?
      (fun c => c.filePath == fp) = some c1 :=
    find?_of_filter_singleton hc1
  rw [createScanningConflict_some _ k2 fn2 fp ms2 c1 hfind1]
  have hmap : ((createScanningConflict db k1 fn1 fp ms1).conflicts.map fun c =>
      if c.id == c1.id then
        { c with fileName := fn2, possibleMatches := ms2, resolved := false }
      else c).filter (fun c => c.filePath == fp) =
      [{ c1 with fileName := fn2, possibleMatches := ms2, resolved := false }] := by
    rw [filter_map_of_pred_eq _ _ (fun x => by by_cases hx : x.id == c1.id <;> simp [hx]),
      hc1]
    simp
  constructor
  · rw [hmap]
    rfl
  · exact ⟨_, find?_of_filter_singleton hmap, rfl, rfl, rfl⟩

/-! ### Lemmas for the orphan-cleanup pass -/

theorem nodup_map_inj {α : Type} {f : α → Nat} {l : List α}
    (hl : (l.map f).Nodup) {x m : α} (hx : x ∈ l) (hm : m ∈ l) (h : f x = f m) : x = m :=
  List.inj_on_of_nodup_map hl hx hm h

theorem find?_eq_of_mem_nodup {α : Type} (f : α → Nat) {l : List α}
    (hl : (l.map f).Nodup) {m : α} (hm : m ∈ l) :
    l.find? (fun x => f x == f m) = some m := by
  induction l with
  | nil => cases hm
  | cons a t ih =>
    rcases List.mem_cons.mp hm with rfl | hmt
    · rw [List.find?_cons_of_pos]
      simp
    · simp only [List.map_cons, List.nodup_cons] at hl
      rw [List.find?_cons_of_neg]
      · exact ih hl.2 hmt
      · intro hbeq
        exact hl.1 (by
          rw [show f a = f m from by simpa using hbeq]
          exact List.mem_map_of_mem _ hmt)

/-- `removeDeletedMovie` refuses when the row's file is on disk. -/
theorem removeDeletedMovie_present (disk : String → Bool) (db : DB) (m : Movie)
    (hfind : db.movies.find? (fun x => x.id == m.id) = some m)
    (hp : m.filePath ≠ "") (hd : disk m.filePath = true) :
    removeDeletedMovie disk db m.id = .error "Movie file still exists on disk" := by
  simp [removeDeletedMovie, hfind, isFileExistsOnDisk, hp, hd]

/-- `removeDeletedMovie` deletes when the delete-time check fails. -/
theorem removeDeletedMovie_absent (disk : String → Bool) (db : DB) (m : Movie)
    (hfind : db.movies.find? (fun x => x.id == m.id) = some m)
    (hd : ¬(m.filePath ≠ "" ∧ disk m.filePath = true)) :
    removeDeletedMovie disk db m.id =
      .ok { db with movies := db.movies.filter fun x => !(x.id == m.id) } := by
  simp only [removeDeletedMovie, hfind, isFileExistsOnDisk]
  rw [if_neg]
  intro hcontra
  simp only [Bool.and_eq_true, bne_iff_ne] at hcontra
  exact hd ⟨hcontra.1, hcontra.2⟩

theorem removeDeletedEpisode_present (disk : String → Bool) (db : DB) (e : Episode)
    (hfind : db.episodes.find? (fun x => x.id == e.id) = some e)
    (hp : e.filePath ≠ "") (hd : disk e.filePath = true) :
    removeDeletedEpisode disk db e.id = .error "Episode file still exists on disk" := by
  simp [removeDeletedEpisode, hfind, isFileExistsOnDisk, hp, hd]

theorem removeDeletedEpisode_absent (disk : String → Bool) (db : DB) (e : Episode)
    (hfind : db.episodes.find? (fun x => x.id == e.id) = some e)
    (hd : ¬(e.filePath ≠ "" ∧ disk e.filePath = true)) :
    removeDeletedEpisode disk db e.id =
      .ok { db with episodes := db.episodes.filter fun x => !(x.id == e.id) } := by
  simp only [removeDeletedEpisode, hfind, isFileExistsOnDisk]
  rw [if_neg]
  intro hcontra
  simp only [Bool.and_eq_true, bne_iff_ne] at hcontra
  exact hd ⟨hcontra.1, hcontra.2⟩

/-- The movie-removal loop, characterized: rows listed in `ms` whose
delete-time check fails are removed; everything else (including rows whose
file reappeared) survives; no other store component changes. -/
theorem cleanupMoviesLoopAux_db (disk : String → Bool) (total : Nat) :
    ∀ (ms : List Movie) (db : DB) (i : Nat),
    (∀ m ∈ ms, m ∈ db.movies) → ((db.movies.map (·.id)).Nodup) →
    (∀ m ∈ ms, m.filePath ≠ "") → ((ms.map (·.id)).Nodup) →
    (cleanupMoviesLoopAux disk total db i ms).1 =
      { db with movies := db.movies.filter fun m =>
          !(ms.any (fun x => x.id == m.id) && !disk m.filePath) } := by
  intro ms
  induction ms with
  | nil =>
    intro db i _ _ _ _
    simp [cleanupMoviesLoopAux]
  | cons m ms' ih =>
    intro db i hsub hnodup hpath hmsnodup
    have hmmem : m ∈ db.movies := hsub m (List.mem_cons_self m ms')
    have hfind : db.movies.find? (fun x => x.id == m.id) = some m :=
      find?_eq_of_mem_nodup (·.id) hnodup hmmem
    simp only [List.map_cons, List.nodup_cons] at hmsnodup
    have hmp : m.filePath ≠ "" := hpath m (List.mem_cons_self m ms')
    simp only [cleanupMoviesLoopAux]
    cases hdisk : disk m.filePath with
    | true =>
      rw [removeDeletedMovie_present disk db m hfind hmp hdisk]
      rw [ih db (i + 1) (fun x hx => hsub x (List.mem_cons_of_mem m hx)) hnodup
        (fun x hx => hpath x (List.mem_cons_of_mem m hx)) hmsnodup.2]
      congr 1
      apply List.filter_congr
      intro x hx
      by_cases hid : x.id = m.id
      · have hxm : x = m := nodup_map_inj hnodup hx hmmem hid
        subst hxm
        have hnoms : (ms'.any fun y => y.id == x.id) = false := by
          rw [List.any_eq_false]
          intro y hy
          intro hyx
          exact hmsnodup.1 (List.mem_map.mpr ⟨y, hy, by simpa using hyx⟩)
        simp [List.any_cons, hnoms, hdisk]
      · have hne1 : (x.id == m.id) = false := by simpa using hid
        have hne2 : (m.id == x.id) = false := by simpa using (Ne.symm hid)
        simp [List.any_cons, hne1, hne2]
    | false =>
      rw [removeDeletedMovie_absent disk db m hfind (by
        intro hcontra
        rw [hdisk] at hcontra
        exact Bool.false_ne_true hcontra.2)]
      have hnodup' : (((db.movies.filter fun x => !(x.id == m.id)).map (·.id)).Nodup) :=
        hnodup.sublist (List.Sublist.map _ (List.filter_sublist _))
      have hsub' : ∀ x ∈ ms', x ∈ db.movies.filter fun y => !(y.id == m.id) := by
        intro x hx
        refine List.mem_filter.mpr ⟨hsub x (List.mem_cons_of_mem m hx), ?_⟩
        have : x.id ≠ m.id := by
          intro hxy
          exact hmsnodup.1 (hxy ▸ List.mem_map_of_mem _ hx)
        simpa using this
      rw [ih _ (i + 1) hsub' hnodup' (fun x hx => hpath x (List.mem_cons_of_mem m hx))
        hmsnodup.2]
      simp only [List.filter_filter]
      congr 1
      apply List.filter_congr
      intro x hx
      by_cases hid : x.id = m.id
      · have hxm : x = m := nodup_map_inj hnodup hx hmmem hid
        subst hxm
        simp [hdisk]
      · have hne1 : (x.id == m.id) = false := by simpa using hid
        have hne2 : (m.id == x.id) = false := by simpa using (Ne.symm hid)
        simp [List.any_cons, hne1, hne2]

/-- The episode-removal loop, characterized like the movie loop. -/
theorem cleanupEpisodesLoopAux_db (disk : String → Bool) (total : Nat) :
    ∀ (ms : List Episode) (db : DB) (i : Nat),
    (∀ e ∈ ms, e ∈ db.episodes) → ((db.episodes.map (·.id)).Nodup) →
    (∀ e ∈ ms, e.filePath ≠ "") → ((ms.map (·.id)).Nodup) →
    (cleanupEpisodesLoopAux disk total db i ms).1 =
      { db with episodes := db.episodes.filter fun e =>
          !(ms.any (fun x => x.id == e.id) && !disk e.filePath) } := by
  intro ms
  induction ms with
  | nil =>
    intro db i _ _ _ _
    simp [cleanupEpisodesLoopAux]
  | cons m ms' ih =>
    intro db i hsub hnodup hpath hmsnodup
    have hmmem : m ∈ db.episodes := hsub m (List.mem_cons_self m ms')
    have hfind : db.episodes.find? (fun x => x.id == m.id) = some m :=
      find?_eq_of_mem_nodup (·.id) hnodup hmmem
    simp only [List.map_cons, List.nodup_cons] at hmsnodup
    have hmp : m.filePath ≠ "" := hpath m (List.mem_cons_self m ms')
    simp only [cleanupEpisodesLoopAux]
    cases hdisk : disk m.filePath with
    | true =>
      rw [removeDeletedEpisode_present disk db m hfind hmp hdisk]
      rw [ih db (i + 1) (fun x hx => hsub x (List.mem_cons_of_mem m hx)) hnodup
        (fun x hx => hpath x (List.mem_cons_of_mem m hx)) hmsnodup.2]
      congr 1
      apply List.filter_congr
      intro x hx
      by_cases hid : x.id = m.id
      · have hxm : x = m := nodup_map_inj hnodup hx hmmem hid
        subst hxm
        have hnoms : (ms'.any fun y => y.id == x.id) = false := by
          rw [List.any_eq_false]
          intro y hy
          intro hyx
          exact hmsnodup.1 (List.mem_map.mpr ⟨y, hy, by simpa using hyx⟩)
        simp [List.any_cons, hnoms, hdisk]
      · have hne1 : (x.id == m.id) = false := by simpa using hid
        have hne2 : (m.id == x.id) = false := by simpa using (Ne.symm hid)
        simp [List.any_cons, hne1, hne2]
    | false =>
      rw [removeDeletedEpisode_absent disk db m hfind (by
        intro hcontra
        rw [hdisk] at hcontra
        exact Bool.false_ne_true hcontra.2)]
      have hnodup' : (((db.episodes.filter fun x => !(x.id == m.id)).map (·.id)).Nodup) :=
        hnodup.sublist (List.Sublist.map _ (List.filter_sublist _))
      have hsub' : ∀ x ∈ ms', x ∈ db.episodes.filter fun y => !(y.id == m.id) := by
        intro x hx
        refine List.mem_filter.mpr ⟨hsub x (List.mem_cons_of_mem m hx), ?_⟩
        have : x.id ≠ m.id := by
          intro hxy
          exact hmsnodup.1 (hxy ▸ List.mem_map_of_mem _ hx)
        simpa using this
      rw [ih _ (i + 1) hsub' hnodup' (fun x hx => hpath x (List.mem_cons_of_mem m hx))
        hmsnodup.2]
      simp only [List.filter_filter]
      congr 1
      apply List.filter_congr
      intro x hx
      by_cases hid : x.id = m.id
      · have hxm : x = m := nodup_map_inj hnodup hx hmmem hid
        subst hxm
        simp [hdisk]
      · have hne1 : (x.id == m.id) = false := by simpa using hid
        have hne2 : (m.id == x.id) = false := by simpa using (Ne.symm hid)
        simp [List.any_cons, hne1, hne2]

/-- The empty-series loop touches only the series list. -/
theorem removeEmptySeriesLoopAux_frame (total : Nat) :
    ∀ (ss : List TvSeries) (db : DB) (i : Nat),
    (removeEmptySeriesLoopAux total db i ss).1.movies = db.movies ∧
    (removeEmptySeriesLoopAux total db i ss).1.episodes = db.episodes ∧
    (removeEmptySeriesLoopAux total db i ss).1.conflicts = db.conflicts ∧
    (removeEmptySeriesLoopAux total db i ss).1.nextId = db.nextId := by
  intro ss
  induction ss with
  | nil =>
    intro db i
    exact ⟨rfl, rfl, rfl, rfl⟩
  | cons s ss' ih =>
    intro db i
    simp only [removeEmptySeriesLoopAux]
    exact ih _ (i + 1)

/-- C1: in the orphan-cleanup pass, a movie or episode row is deleted if
and only if its bound `filePath` was missing in the scan-start snapshot
*and* still fails the existence re-check performed immediately before the
delete; `removeDeletedMovie`/`removeDeletedEpisode` re-fetch the row and
refuse with an error whenever the file is present again at delete time. -/
theorem c1_orphan_safety (snap del : String → Bool) (db : DB)
    (hm : (db.movies.map (·.id)).Nodup) (he : (db.episodes.map (·.id)).Nodup) :
    ((cleanupOrphanedEntries snap del db).1.movies =
      db.movies.filter fun m =>
        !((m.filePath != "" && !snap m.filePath) && !del m.filePath)) ∧
    ((cleanupOrphanedEntries snap del db).1.episodes =
      db.episodes.filter fun e =>
        !((e.filePath != "" && !snap e.filePath) && !del e.filePath)) ∧
    (∀ m ∈ db.movies, m.filePath ≠ "" → del m.filePath = true →
      removeDeletedMovie del db m.id = .error "Movie file still exists on disk") ∧
    (∀ e ∈ db.episodes, e.filePath ≠ "" → del e.filePath = true →
      removeDeletedEpisode del db e.id = .error "Episode file still exists on disk") := by
  have movieStep : (cleanupMoviesLoop del db (checkForDeletedMovies snap db)).1 =
      { db with movies := db.movies.filter fun m =>
          !((m.filePath != "" && !snap m.filePath) && !del m.filePath) } := by
    rw [cleanupMoviesLoop,
      cleanupMoviesLoopAux_db del _ (checkForDeletedMovies snap db) db 0
        (fun x hx => (List.mem_filter.mp hx).1) hm
        (fun x hx => by
          have := (List.mem_filter.mp hx).2
          simp only [Bool.and_eq_true, bne_iff_ne] at this
          exact this.1)
        (hm.sublist (List.Sublist.map _ (List.filter_sublist _)))]
    congr 1
    apply List.filter_congr
    intro m hmem
    have hany : ((checkForDeletedMovies snap db).any fun x => x.id == m.id) =
        (m.filePath != "" && !snap m.filePath) := by
      by_cases hpred : (m.filePath != "" && !snap m.filePath) = true
      · rw [hpred, List.any_eq_true]
        exact ⟨m, List.mem_filter.mpr ⟨hmem, by
          simpa [checkForDeletedMovies, isFileExistsOnDisk] using hpred⟩, by simp⟩
      · have hfalse : (m.filePath != "" && !snap m.filePath) = false := by
          simpa using hpred
        rw [hfalse, List.any_eq_false]
        intro x hx hbeq
        have hxm : x = m := nodup_map_inj hm (List.mem_filter.mp hx).1 hmem
          (by simpa using hbeq)
        subst hxm
        have := (List.mem_filter.mp hx).2
        simp only [checkForDeletedMovies, isFileExistsOnDisk] at this hfalse
        rw [hfalse] at this
        exact Bool.false_ne_true this
    rw [hany]
  have hepsEq : (cleanupMoviesLoop del db (checkForDeletedMovies snap db)).1.episodes =
      db.episodes := by rw [movieStep]
  have heNodup : ((cleanupMoviesLoop del db
      (checkForDeletedMovies snap db)).1.episodes.map (·.id)).Nodup := by
    rw [hepsEq]
    exact he
  have hchk : checkForDeletedEpisodes snap
        (cleanupMoviesLoop del db (checkForDeletedMovies snap db)).1 =
      db.episodes.filter fun episode =>
        episode.filePath != "" && !isFileExistsOnDisk snap episode.filePath := by
    unfold checkForDeletedEpisodes
    rw [hepsEq]
  have epStep : (cleanupEpisodesLoop del
        (cleanupMoviesLoop del db (checkForDeletedMovies snap db)).1
        (checkForDeletedEpisodes snap
          (cleanupMoviesLoop del db (checkForDeletedMovies snap db)).1)).1 =
      { (cleanupMoviesLoop del db (checkForDeletedMovies snap db)).1 with
        episodes := db.episodes.filter fun e =>
          !((e.filePath != "" && !snap e.filePath) && !del e.filePath) } := by
    rw [cleanupEpisodesLoop, hchk,
      cleanupEpisodesLoopAux_db del _ _ _ 0
        (fun x hx => by
          rw [hepsEq]
          exact (List.mem_filter.mp hx).1)
        heNodup
        (fun x hx => by
          have := (List.mem_filter.mp hx).2
          simp only [Bool.and_eq_true, bne_iff_ne] at this
          exact this.1)
        (he.sublist (List.Sublist.map _ (List.filter_sublist _)))]
    rw [hepsEq]
    congr 1
    apply List.filter_congr
    intro e hmem
    have hany : ((db.episodes.filter fun episode => episode.filePath != "" &&
          !isFileExistsOnDisk snap episode.filePath).any fun x => x.id == e.id) =
        (e.filePath != "" && !snap e.filePath) := by
      by_cases hpred : (e.filePath != "" && !snap e.filePath) = true
      · rw [hpred, List.any_eq_true]
        exact ⟨e, List.mem_filter.mpr ⟨hmem, by
          simpa [isFileExistsOnDisk] using hpred⟩, by simp⟩
      · have hfalse : (e.filePath != "" && !snap e.filePath) = false := by
          simpa using hpred
        rw [hfalse, List.any_eq_false]
        intro x hx hbeq
        have hxm : x = e := nodup_map_inj he (List.mem_filter.mp hx).1 hmem
          (by simpa using hbeq)
        subst hxm
        have := (List.mem_filter.mp hx).2
        simp only [isFileExistsOnDisk] at this hfalse
        rw [hfalse] at this
        exact Bool.false_ne_true this
    rw [hany]
  refine ⟨?_, ?_, ?_, ?_⟩
  · show (cleanupOrphanedEntries snap del db).1.movies = _
    simp only [cleanupOrphanedEntries, removeEmptySeriesLoop]
    rw [(removeEmptySeriesLoopAux_frame _ _ _ _).1, epStep]
    simp [movieStep]
  · show (cleanupOrphanedEntries snap del db).1.episodes = _
    simp only [cleanupOrphanedEntries, removeEmptySeriesLoop]
    rw [(removeEmptySeriesLoopAux_frame _ _ _ _).2.1, epStep]
  · intro m hmem hp hd
    exact removeDeletedMovie_present del db m
      (find?_eq_of_mem_nodup (·.id) hm hmem) hp hd
  · intro e hmem hp hd
    exact removeDeletedEpisode_present del db e
      (find?_eq_of_mem_nodup (·.id) he hmem) hp hd

/-- C1 witness: a two-row store where the movie's file is gone at both
instants (deleted) and the episode's file reappeared between snapshot and
delete time (kept, the removal refusing with an error). -/
theorem c1_orphan_safety_witness :
    ((cleanupOrphanedEntries (fun _ => false) (fun p => p = "/s/Old.mkv")
        ⟨[mov0], [], [ep0], [], 20⟩).1.movies = []) ∧
    ((cleanupOrphanedEntries (fun _ => false) (fun p => p = "/s/Old.mkv")
        ⟨[mov0], [], [ep0], [], 20⟩).1.episodes = [ep0]) ∧
    removeDeletedEpisode (fun p => p = "/s/Old.mkv") ⟨[mov0], [], [ep0], [], 20⟩ ep0.id =
      .error "Episode file still exists on disk" := by
  have h := c1_orphan_safety (fun _ => false)
    (fun p : String => decide (p = "/s/Old.mkv")) ⟨[mov0], [], [ep0], [], 20⟩
    (by decide) (by decide)
  refine ⟨?_, ?_, ?_⟩
  · rw [h.1]
    decide
  · rw [h.2.1]
    decide
  · exact h.2.2.2 ep0 (by decide) (by decide) (by decide)

/-- `createScanningConflict` never touches movies, series or episodes. -/
theorem createScanningConflict_frame (db : DB) (k : MediaKind) (fn fp : String)
    (ms : List Candidate) :
    (createScanningConflict db k fn fp ms).movies = db.movies ∧
    (createScanningConflict db k fn fp ms).series = db.series ∧
    (createScanningConflict db k fn fp ms).episodes = db.episodes := by
  unfold createScanningConflict
  cases db.conflicts.find? (fun c => c.filePath == fp) <;> exact ⟨rfl, rfl, rfl⟩

/-- C6: for a parseable episode file whose series search returns exactly
one candidate and whose episode lookup fails, the inner `catch`
distinguishes 404: a 404 yields a refreshed conflict with an empty
candidate list, leaves series and episode tables untouched, and the loop
continues; any other failure is re-thrown out of `processEpisodeParsed`
into the per-file handler, which swallows it leaving the store unchanged. -/
theorem c6_episode_404 (env : Env) (db : DB) (groups : List (String × List String))
    (file : String) (p : ParsedEpisode) (r sd : TMDBTVResult) (e : HErr)
    (hp : parseEpisode file = some p)
    (hdb : isEpisodeInDatabase db p.fileName p.filePath p.seriesName p.seasonNumber
      p.episodeNumber = false)
    (hs : env.searchTV p.seriesName = .ok [r])
    (hd : env.getTVDetails r.id = .ok sd)
    (he : env.getEpisodeDetails r.id p.seasonNumber p.episodeNumber = .error e) :
    (e.is404 = true →
      processEpisodeParsed env db p =
        .ok (createScanningConflict db .series p.fileName p.filePath []) ∧
      (createScanningConflict db .series p.fileName p.filePath []).series = db.series ∧
      (createScanningConflict db .series p.fileName p.filePath []).episodes = db.episodes ∧
      seriesScanStep env (db, groups) file =
        (createScanningConflict db .series p.fileName p.filePath [], groups)) ∧
    (e.is404 = false →
      processEpisodeParsed env db p = .error e ∧
      seriesScanStep env (db, groups) file = (db, groups)) := by
  have hcore : processEpisodeParsed env db p =
      if e.is404 then .ok (createScanningConflict db .series p.fileName p.filePath [])
      else .error e := by
    simp only [processEpisodeParsed, hdb, hs, hd, he, Bool.false_eq_true, if_false]
  constructor
  · intro h404
    have hval : processEpisodeParsed env db p =
        .ok (createScanningConflict db .series p.fileName p.filePath []) := by
      rw [hcore, h404]
      rfl
    refine ⟨hval, (createScanningConflict_frame db .series p.fileName p.filePath []).2.1,
      (createScanningConflict_frame db .series p.fileName p.filePath []).2.2, ?_⟩
    unfold seriesScanStep
    rw [hp]
    simp only [hval]
  · intro h404
    have hval : processEpisodeParsed env db p = .error e := by
      rw [hcore, h404]
      rfl
    refine ⟨hval, ?_⟩
    unfold seriesScanStep
    rw [hp]
    simp only [hval]

/-- An environment whose episode lookup reports 404. -/
def env404 : Env :=
  { envC3 with
    searchTV := fun q => if q = "Show" then .ok [tmdbTV0] else .ok []
    getTVDetails := fun i => if i = 21 then .ok tmdbTV0 else .error ⟨none, some 500⟩
    getEpisodeDetails := fun _ _ _ => .error ⟨some 404, none⟩ }

/-- The parse of `/s/Show S01 E02.mkv`. -/
def pe404 : ParsedEpisode :=
  ⟨"Show S01 E02", "/s/Show S01 E02.mkv", "Show", some 1, some 2,
    none, none, none, none, none⟩

/-- C6 witness: the 404 flow at a concrete file and empty store. -/
theorem c6_episode_404_witness :
    seriesScanStep env404 (emptyDB, []) "/s/Show S01 E02.mkv" =
      (createScanningConflict emptyDB .series "Show S01 E02" "/s/Show S01 E02.mkv" [],
        []) :=
  ((c6_episode_404 env404 emptyDB [] "/s/Show S01 E02.mkv" pe404 tmdbTV0 tmdbTV0
    ⟨some 404, none⟩ (by decide) (by decide) (by decide) (by decide)
    (by decide)).1 (by decide)).2.2.2

/-! ### Lemmas about `cleanTitle` -/

theorem collapseWs_mem {c : Char} :
    ∀ (b : Bool) (l : List Char), c ∈ cleanTitle.collapseWs b l → c = ' ' ∨ c ∈ l := by
  intro b l
  induction l generalizing b with
  | nil =>
    intro h
    simp [cleanTitle.collapseWs] at h
  | cons a t ih =>
    intro h
    simp only [cleanTitle.collapseWs] at h
    by_cases hws : isWsChar a
    · rw [if_pos hws] at h
      cases b with
      | true =>
        rw [if_pos rfl] at h
        rcases ih true h with h' | h'
        · exact Or.inl h'
        · exact Or.inr (List.mem_cons_of_mem a h')
      | false =>
        rw [if_neg (by simp)] at h
        rcases List.mem_cons.mp h with rfl | h'
        · exact Or.inl rfl
        · rcases ih true h' with h'' | h''
          · exact Or.inl h''
          · exact Or.inr (List.mem_cons_of_mem a h'')
    · rw [if_neg hws] at h
      rcases List.mem_cons.mp h with rfl | h'
      · exact Or.inr (List.mem_cons_self c t)
      · rcases ih false h' with h'' | h''
        · exact Or.inl h''
        · exact Or.inr (List.mem_cons_of_mem a h'')

theorem jsTrim_subset {c : Char} {l : List Char} (h : c ∈ jsTrim l) : c ∈ l := by
  unfold jsTrim at h
  rw [List.mem_reverse] at h
  have h2 := (List.dropWhile_sublist (l := (l.dropWhile fun c => isWsChar c).reverse)
    (p := fun c => isWsChar c)).subset h
  rw [List.mem_reverse] at h2
  exact (List.dropWhile_sublist (l := l) (p := fun c => isWsChar c)).subset h2

/-- Every character of a cleaned title is neither a dot nor an underscore:
the two global replaces remove them, whitespace collapse introduces only
spaces, and trim only drops characters. -/
theorem cleanTitle_no_dot_underscore (s : String) :
    '.' ∉ (cleanTitle s).data ∧ '_' ∉ (cleanTitle s).data := by
  have hmap : ∀ c ∈ ((s.data.map fun c => if c = '.' then ' ' else c).map
      fun c => if c = '_' then ' ' else c), c ≠ '.' ∧ c ≠ '_' := by
    intro c hc
    rcases List.mem_map.mp hc with ⟨b, hb, rfl⟩
    rcases List.mem_map.mp hb with ⟨a, _, rfl⟩
    constructor
    · by_cases hb' : (if a = '.' then ' ' else a) = '_'
      · rw [if_pos hb']
        decide
      · rw [if_neg hb']
        by_cases ha : a = '.'
        · rw [if_pos ha]
          decide
        · rw [if_neg ha]
          exact ha
    · by_cases hb' : (if a = '.' then ' ' else a) = '_'
      · rw [if_pos hb']
        decide
      · rw [if_neg hb']
        exact hb'
  constructor
  · intro hmem
    have h1 : ('.' : Char) ∈ cleanTitle.collapseWs false
        ((s.data.map fun c => if c = '.' then ' ' else c).map
          fun c => if c = '_' then ' ' else c) := jsTrim_subset hmem
    rcases collapseWs_mem false _ h1 with h2 | h2
    · cases h2
    · exact (hmap _ h2).1 rfl
  · intro hmem
    have h1 : ('_' : Char) ∈ cleanTitle.collapseWs false
        ((s.data.map fun c => if c = '.' then ' ' else c).map
          fun c => if c = '_' then ' ' else c) := jsTrim_subset hmem
    rcases collapseWs_mem false _ h1 with h2 | h2
    · cases h2
    · exact (hmap _ h2).2 rfl

/-- C8: every title `parseMovie` produces has its dots and underscores
replaced (none remain after cleanup), and the spec's example parses to
title `"The Thing"` with year 1982 (the first pattern, `Title (Year)
[tags...]`, with the `.[BluRay]` segment consumed as the extension and the
residual `.[1080p]` text landing in the positional `quality` capture). -/
theorem c8_parse_movie_title_year :
    (∀ (fp : String) (r : ParsedMovie), parseMovie fp = some r →
      '.' ∉ r.title.data ∧ '_' ∉ r.title.data) ∧
    parseMovie "The.Thing.(1982).[1080p].[BluRay]" =
      some ⟨"The.Thing.(1982).[1080p]", "The.Thing.(1982).[1080p].[BluRay]",
        "The Thing", some 1982, none, some ".[1080p]", none, none, none⟩ := by
  constructor
  · intro fp r hr
    unfold parseMovie at hr
    dsimp only [] at hr
    cases hfm : firstPatternMatch movieRegexPatterns
        (basenameExt fp (extname fp)).data with
    | none =>
      rw [hfm] at hr
      cases hr
    | some caps =>
      rw [hfm] at hr
      have := Option.some.inj hr
      rw [← this]
      exact cleanTitle_no_dot_underscore _
  · decide

/-- C8 witness: the no-dots/underscores property applied at the example. -/
theorem c8_parse_movie_title_year_witness :
    '.' ∉ ("The Thing" : String).data ∧ '_' ∉ ("The Thing" : String).data :=
  c8_parse_movie_title_year.1 "The.Thing.(1982).[1080p].[BluRay]"
    ⟨"The.Thing.(1982).[1080p]", "The.Thing.(1982).[1080p].[BluRay]",
      "The Thing", some 1982, none, some ".[1080p]", none, none, none⟩
    c8_parse_movie_title_year.2

/-! ### Lemmas about the fallback movie pattern -/

theorem mem_of_mem_getLast? {α : Type} {l : List α} {a : α} (h : a ∈ l.getLast?) : a ∈ l := by
  rcases List.mem_getLast?_eq_getLast h with ⟨hne, rfl⟩
  exact List.getLast_mem hne

theorem foldFolders_head (scan : DB → String → Except String DB)
    (f : Nat → String → ProgressEvent) (db : DB) (i : Nat) (p : String) (ps : List String) :
    ((foldFolders scan f db i (p :: ps)).2.1).head? = some (f i p) := by
  simp only [foldFolders]
  cases scan db p <;> rfl

theorem foldFolders_mem (scan : DB → String → Except String DB)
    (f : Nat → String → ProgressEvent) :
    ∀ (ps : List String) (db : DB) (i : Nat),
    ∀ ev ∈ (foldFolders scan f db i ps).2.1,
    ∃ j p, i ≤ j ∧ j < i + ps.length ∧ ev = f j p := by
  intro ps
  induction ps with
  | nil =>
    intro db i ev hev
    simp [foldFolders] at hev
  | cons p ps' ih =>
    intro db i ev hev
    simp only [foldFolders] at hev
    cases hsc : scan db p with
    | error e =>
      rw [hsc] at hev
      simp only [List.mem_singleton] at hev
      exact ⟨i, p, le_refl i, by simp, hev⟩
    | ok db' =>
      rw [hsc] at hev
      rcases List.mem_cons.mp hev with rfl | hev'
      · exact ⟨i, p, le_refl i, by simp, rfl⟩
      · rcases ih db' (i + 1) ev hev' with ⟨j, q, hj1, hj2, hj3⟩
        exact ⟨j, q, le_trans (Nat.le_succ i) hj1, by simpa [Nat.add_comm, Nat.add_left_comm,
          Nat.add_assoc] using hj2, hj3⟩

theorem foldFolders_chain (scan : DB → String → Except String DB)
    (f : Nat → String → ProgressEvent)
    (hmono : ∀ j p q, (f j p).progress ≤ (f (j + 1) q).progress) :
    ∀ (ps : List String) (db : DB) (i : Nat),
    List.Chain' (fun a b => a.progress ≤ b.progress) (foldFolders scan f db i ps).2.1 := by
  intro ps
  induction ps with
  | nil =>
    intro db i
    simp [foldFolders]
  | cons p ps' ih =>
    intro db i
    simp only [foldFolders]
    cases hsc : scan db p with
    | error e => simp
    | ok db' =>
      simp only []
      rw [List.chain'_cons']
      refine ⟨?_, ih db' (i + 1)⟩
      intro b hb
      cases ps' with
      | nil =>
        simp [foldFolders] at hb
      | cons q qs =>
        rw [foldFolders_head] at hb
        simp only [Option.mem_def, Option.some.injEq] at hb
        rw [← hb]
        exact hmono i p q

theorem cleanupMoviesLoopAux_trace (disk : String → Bool) (total : Nat) :
    ∀ (ms : List Movie) (db : DB) (i : Nat),
    ∀ ev ∈ (cleanupMoviesLoopAux disk total db i ms).2,
    ∃ j m, i ≤ j ∧ j < i + ms.length ∧
      ev = ⟨"Removing orphaned movies", 80 + (j * 5) / total,
        some (.removal (j + 1) total (Movie.title m))⟩ := by
  intro ms
  induction ms with
  | nil =>
    intro db i ev hev
    simp [cleanupMoviesLoopAux] at hev
  | cons m ms' ih =>
    intro db i ev hev
    simp only [cleanupMoviesLoopAux] at hev
    rcases List.mem_cons.mp hev with rfl | hev'
    · exact ⟨i, m, le_refl i, by simp, rfl⟩
    · rcases ih _ (i + 1) ev hev' with ⟨j, x, hj1, hj2, hj3⟩
      exact ⟨j, x, le_trans (Nat.le_succ i) hj1, by simpa [Nat.add_comm, Nat.add_left_comm,
        Nat.add_assoc] using hj2, hj3⟩

theorem cleanupMoviesLoopAux_head (disk : String → Bool) (total : Nat)
    (db : DB) (i : Nat) (m : Movie) (ms : List Movie) :
    ((cleanupMoviesLoopAux disk total db i (m :: ms)).2).head? =
      some ⟨"Removing orphaned movies", 80 + (i * 5) / total,
        some (.removal (i + 1) total m.title)⟩ := rfl

theorem cleanupMoviesLoopAux_chain (disk : String → Bool) (total : Nat) :
    ∀ (ms : List Movie) (db : DB) (i : Nat),
    List.Chain' (fun a b => a.progress ≤ b.progress)
      (cleanupMoviesLoopAux disk total db i ms).2 := by
  intro ms
  induction ms with
  | nil =>
    intro db i
    simp [cleanupMoviesLoopAux]
  | cons m ms' ih =>
    intro db i
    simp only [cleanupMoviesLoopAux]
    rw [List.chain'_cons']
    refine ⟨?_, ih _ (i + 1)⟩
    intro b hb
    cases ms' with
    | nil => simp [cleanupMoviesLoopAux] at hb
    | cons q qs =>
      rw [cleanupMoviesLoopAux_head] at hb
      simp only [Option.mem_def, Option.some.injEq] at hb
      rw [← hb]
      show 80 + (i * 5) / total ≤ 80 + ((i + 1) * 5) / total
      exact Nat.add_le_add_left (Nat.div_le_div_right (Nat.mul_le_mul_right 5
        (Nat.le_succ i))) 80

theorem cleanupEpisodesLoopAux_trace (disk : String → Bool) (total : Nat) :
    ∀ (ms : List Episode) (db : DB) (i : Nat),
    ∀ ev ∈ (cleanupEpisodesLoopAux disk total db i ms).2,
    ∃ j e, i ≤ j ∧ j < i + ms.length ∧
      ev = ⟨"Removing orphaned episodes", 85 + (j * 5) / total,
        some (.removal (j + 1) total (Episode.title e))⟩ := by
  intro ms
  induction ms with
  | nil =>
    intro db i ev hev
    simp [cleanupEpisodesLoopAux] at hev
  | cons m ms' ih =>
    intro db i ev hev
    simp only [cleanupEpisodesLoopAux] at hev
    rcases List.mem_cons.mp hev with rfl | hev'
    · exact ⟨i, m, le_refl i, by simp, rfl⟩
    · rcases ih _ (i + 1) ev hev' with ⟨j, x, hj1, hj2, hj3⟩
      exact ⟨j, x, le_trans (Nat.le_succ i) hj1, by simpa [Nat.add_comm, Nat.add_left_comm,
        Nat.add_assoc] using hj2, hj3⟩

theorem cleanupEpisodesLoopAux_head (disk : String → Bool) (total : Nat)
    (db : DB) (i : Nat) (e : Episode) (ms : List Episode) :
    ((cleanupEpisodesLoopAux disk total db i (e :: ms)).2).head? =
      some ⟨"Removing orphaned episodes", 85 + (i * 5) / total,
        some (.removal (i + 1) total e.title)⟩ := rfl

theorem cleanupEpisodesLoopAux_chain (disk : String → Bool) (total : Nat) :
    ∀ (ms : List Episode) (db : DB) (i : Nat),
    List.Chain' (fun a b => a.progress ≤ b.progress)
      (cleanupEpisodesLoopAux disk total db i ms).2 := by
  intro ms
  induction ms with
  | nil =>
    intro db i
    simp [cleanupEpisodesLoopAux]
  | cons m ms' ih =>
    intro db i
    simp only [cleanupEpisodesLoopAux]
    rw [List.chain'_cons']
    refine ⟨?_, ih _ (i + 1)⟩
    intro b hb
    cases ms' with
    | nil => simp [cleanupEpisodesLoopAux] at hb
    | cons q qs =>
      rw [cleanupEpisodesLoopAux_head] at hb
      simp only [Option.mem_def, Option.some.injEq] at hb
      rw [← hb]
      show 85 + (i * 5) / total ≤ 85 + ((i + 1) * 5) / total
      exact Nat.add_le_add_left (Nat.div_le_div_right (Nat.mul_le_mul_right 5
        (Nat.le_succ i))) 85

theorem removeEmptySeriesLoopAux_trace (total : Nat) :
    ∀ (ss : List TvSeries) (db : DB) (i : Nat),
    ∀ ev ∈ (removeEmptySeriesLoopAux total db i ss).2,
    ∃ j s, i ≤ j ∧ j < i + ss.length ∧
      ev = ⟨"Removing empty TV series", 90 + (j * 5) / total,
        some (.removal (j + 1) total (TvSeries.title s))⟩ := by
  intro ss
  induction ss with
  | nil =>
    intro db i ev hev
    simp [removeEmptySeriesLoopAux] at hev
  | cons m ss' ih =>
    intro db i ev hev
    simp only [removeEmptySeriesLoopAux] at hev
    rcases List.mem_cons.mp hev with rfl | hev'
    · exact ⟨i, m, le_refl i, by simp, rfl⟩
    · rcases ih _ (i + 1) ev hev' with ⟨j, x, hj1, hj2, hj3⟩
      exact ⟨j, x, le_trans (Nat.le_succ i) hj1, by simpa [Nat.add_comm, Nat.add_left_comm,
        Nat.add_assoc] using hj2, hj3⟩

theorem removeEmptySeriesLoopAux_head (total : Nat)
    (db : DB) (i : Nat) (s : TvSeries) (ss : List TvSeries) :
    ((removeEmptySeriesLoopAux total db i (s :: ss)).2).head? =
      some ⟨"Removing empty TV series", 90 + (i * 5) / total,
        some (.removal (i + 1) total s.title)⟩ := rfl

theorem removeEmptySeriesLoopAux_chain (total : Nat) :
    ∀ (ss : List TvSeries) (db : DB) (i : Nat),
    List.Chain' (fun a b => a.progress ≤ b.progress)
      (removeEmptySeriesLoopAux total db i ss).2 := by
  intro ss
  induction ss with
  | nil =>
    intro db i
    simp [removeEmptySeriesLoopAux]
  | cons m ss' ih =>
    intro db i
    simp only [removeEmptySeriesLoopAux]
    rw [List.chain'_cons']
    refine ⟨?_, ih _ (i + 1)⟩
    intro b hb
    cases ss' with
    | nil => simp [removeEmptySeriesLoopAux] at hb
    | cons q qs =>
      rw [removeEmptySeriesLoopAux_head] at hb
      simp only [Option.mem_def, Option.some.injEq] at hb
      rw [← hb]
      show 90 + (i * 5) / total ≤ 90 + ((i + 1) * 5) / total
      exact Nat.add_le_add_left (Nat.div_le_div_right (Nat.mul_le_mul_right 5
        (Nat.le_succ i))) 90

theorem head?_append_cases {α : Type} {P : α → Prop} (A B : List α)
    (hA : ∀ y ∈ A.head?, P y) (hB : ∀ y ∈ B.head?, P y) :
    ∀ y ∈ (A ++ B).head?, P y := by
  cases A with
  | nil => simpa using hB
  | cons a as =>
    intro y hy
    simp only [List.cons_append, List.head?_cons, Option.mem_def, Option.some.injEq] at hy
    subst hy
    exact hA a rfl

theorem folderProg_le (j total : Nat) (h : j < total) : j * 70 / total ≤ 70 := by
  have h1 : j * 70 / total ≤ total * 70 / total :=
    Nat.div_le_div_right (Nat.mul_le_mul_right 70 (le_of_lt h))
  have h2 : total * 70 / total = 70 :=
    Nat.mul_div_cancel_left 70 (lt_of_le_of_lt (Nat.zero_le j) h)
  omega

theorem removalProg_le (base j total : Nat) (h : j < total) :
    base + j * 5 / total ≤ base + 5 := by
  have h1 : j * 5 / total ≤ total * 5 / total :=
    Nat.div_le_div_right (Nat.mul_le_mul_right 5 (le_of_lt h))
  have h2 : total * 5 / total = 5 :=
    Nat.mul_div_cancel_left 5 (lt_of_le_of_lt (Nat.zero_le j) h)
  omega

theorem cleanupMoviesLoopAux_mem_bound (disk : String → Bool) (ms : List Movie)
    (db : DB) :
    ∀ ev ∈ (cleanupMoviesLoopAux disk ms.length db 0 ms).2,
      80 ≤ ev.progress ∧ ev.progress ≤ 85 := by
  intro ev hev
  rcases cleanupMoviesLoopAux_trace disk ms.length ms db 0 ev hev with ⟨j, m, _, hjlt, rfl⟩
  have h1 := removalProg_le 80 j ms.length (by omega)
  constructor
  · show (80 : Nat) ≤ 80 + j * 5 / ms.length
    exact Nat.le_add_right 80 _
  · show 80 + j * 5 / ms.length ≤ (85 : Nat)
    exact h1

theorem cleanupEpisodesLoopAux_mem_bound (disk : String → Bool) (ms : List Episode)
    (db : DB) :
    ∀ ev ∈ (cleanupEpisodesLoopAux disk ms.length db 0 ms).2,
      85 ≤ ev.progress ∧ ev.progress ≤ 90 := by
  intro ev hev
  rcases cleanupEpisodesLoopAux_trace disk ms.length ms db 0 ev hev with ⟨j, m, _, hjlt, rfl⟩
  have h1 := removalProg_le 85 j ms.length (by omega)
  constructor
  · show (85 : Nat) ≤ 85 + j * 5 / ms.length
    exact Nat.le_add_right 85 _
  · show 85 + j * 5 / ms.length ≤ (90 : Nat)
    exact h1

theorem removeEmptySeriesLoopAux_mem_bound (ss : List TvSeries) (db : DB) :
    ∀ ev ∈ (removeEmptySeriesLoopAux ss.length db 0 ss).2,
      90 ≤ ev.progress ∧ ev.progress ≤ 95 := by
  intro ev hev
  rcases removeEmptySeriesLoopAux_trace ss.length ss db 0 ev hev with ⟨j, m, _, hjlt, rfl⟩
  have h1 := removalProg_le 90 j ss.length (by omega)
  constructor
  · show (90 : Nat) ≤ 90 + j * 5 / ss.length
    exact Nat.le_add_right 90 _
  · show 90 + j * 5 / ss.length ≤ (95 : Nat)
    exact h1

theorem cleanupOrphanedEntries_trace_mem (snap del : String → Bool) (db : DB) :
    ∀ ev ∈ (cleanupOrphanedEntries snap del db).2.2,
      (80 ≤ ev.progress ∧ ev.progress ≤ 95) ∧
      ev.status ∈ ["Checking for deleted movies", "Removing orphaned movies",
        "Checking for deleted episodes", "Removing orphaned episodes",
        "Checking for empty TV series", "Removing empty TV series",
        "Cleanup completed"] := by
  simp only [cleanupOrphanedEntries, cleanupMoviesLoop, cleanupEpisodesLoop,
    removeEmptySeriesLoop]
  intro ev hev
  simp only [List.mem_append, List.mem_singleton, List.mem_cons,
    List.not_mem_nil, or_false] at hev
  rcases hev with (((((rfl | hev) | rfl) | hev) | rfl) | hev) | rfl
  · exact ⟨by decide, by decide⟩
  · have hb := cleanupMoviesLoopAux_mem_bound del _ _ ev hev
    refine ⟨⟨hb.1, le_trans hb.2 (by omega)⟩, ?_⟩
    rcases cleanupMoviesLoopAux_trace del _ _ _ 0 ev hev with ⟨j, m, _, _, rfl⟩
    simp
  · exact ⟨by decide, by decide⟩
  · have hb := cleanupEpisodesLoopAux_mem_bound del _ _ ev hev
    refine ⟨⟨le_trans (by omega) hb.1, le_trans hb.2 (by omega)⟩, ?_⟩
    rcases cleanupEpisodesLoopAux_trace del _ _ _ 0 ev hev with ⟨j, m, _, _, rfl⟩
    simp
  · exact ⟨by decide, by decide⟩
  · have hb := removeEmptySeriesLoopAux_mem_bound _ _ ev hev
    refine ⟨⟨le_trans (by omega) hb.1, hb.2⟩, ?_⟩
    rcases removeEmptySeriesLoopAux_trace _ _ _ 0 ev hev with ⟨j, m, _, _, rfl⟩
    simp
  · exact ⟨by decide, by decide⟩

theorem cleanupOrphanedEntries_trace_chain (snap del : String → Bool) (db : DB) :
    List.Chain' (fun a b => a.progress ≤ b.progress)
      (cleanupOrphanedEntries snap del db).2.2 := by
  simp only [cleanupOrphanedEntries, cleanupMoviesLoop, cleanupEpisodesLoop,
    removeEmptySeriesLoop, List.append_assoc, List.singleton_append]
  refine List.chain'_cons'.mpr ⟨?_, ?_⟩
  · apply head?_append_cases
    · intro y hy
      exact (cleanupMoviesLoopAux_mem_bound del _ _ y (List.mem_of_mem_head? hy)).1
    · intro y hy
      simp only [List.cons_append, List.head?_cons, Option.mem_def, Option.some.injEq] at hy
      subst hy
      decide
  · refine List.Chain'.append (cleanupMoviesLoopAux_chain _ _ _ _ _) ?_ ?_
    · refine List.chain'_cons'.mpr ⟨?_, ?_⟩
      · apply head?_append_cases
        · intro y hy
          have hb := (cleanupEpisodesLoopAux_mem_bound del _ _ y
            (List.mem_of_mem_head? hy)).1
          show (85 : Nat) ≤ y.progress
          omega
        · intro y hy
          simp only [List.cons_append, List.head?_cons, Option.mem_def, Option.some.injEq] at hy
          subst hy
          decide
      · refine List.Chain'.append (cleanupEpisodesLoopAux_chain _ _ _ _ _) ?_ ?_
        · refine List.chain'_cons'.mpr ⟨?_, ?_⟩
          · apply head?_append_cases
            · intro y hy
              have hb := (removeEmptySeriesLoopAux_mem_bound _ _ y
                (List.mem_of_mem_head? hy)).1
              show (90 : Nat) ≤ y.progress
              omega
            · intro y hy
              simp only [List.cons_append, List.head?_cons, Option.mem_def, Option.some.injEq] at hy
              subst hy
              decide
          · refine List.Chain'.append (removeEmptySeriesLoopAux_chain _ _ _ _) ?_ ?_
            · exact List.chain'_singleton _
            · intro x hx y hy
              have hb := (removeEmptySeriesLoopAux_mem_bound _ _ x
                (mem_of_mem_getLast? hx)).2
              simp only [List.cons_append, List.head?_cons, Option.mem_def, Option.some.injEq] at hy
              subst hy
              show x.progress ≤ (95 : Nat)
              omega
        · intro x hx y hy
          have hb := (cleanupEpisodesLoopAux_mem_bound del _ _ x
            (mem_of_mem_getLast? hx)).2
          simp only [List.cons_append, List.head?_cons, Option.mem_def, Option.some.injEq] at hy
          subst hy
          show x.progress ≤ (90 : Nat)
          omega
    · intro x hx y hy
      have hb := (cleanupMoviesLoopAux_mem_bound del _ _ x (mem_of_mem_getLast? hx)).2
      simp only [List.cons_append, List.head?_cons, Option.mem_def, Option.some.injEq] at hy
      subst hy
      show x.progress ≤ (85 : Nat)
      omega

theorem foldFolders_isNone (scan : DB → String → Except String DB)
    (ok : String → Bool) (h : ∀ db p, (scan db p).isOk = ok p) :
    ∀ (mkEv : Nat → String → ProgressEvent) (ps : List String) (db : DB) (i : Nat),
    ((foldFolders scan mkEv db i ps).2.2).isNone = ps.all ok := by
  intro mkEv ps
  induction ps with
  | nil => intro db i; rfl
  | cons p ps' ih =>
    intro db i
    simp only [foldFolders]
    cases hsc : scan db p with
    | error e =>
      have hok : ok p = false := by rw [← h db p, hsc]; rfl
      simp [hok]
    | ok db' =>
      have hok : ok p = true := by rw [← h db p, hsc]; rfl
      simp [hok, ih db' (i + 1)]

/-- C5 counterexample: with folders `["/bad", "/m"]` where enumerating
`/bad` throws `EIO`, `scanAll` returns that error and indexes nothing from
the healthy folder `/m`, although scanning `/m` alone indexes a movie: the
failure is not degraded to a warning and the remaining folder is not
scanned. -/
theorem c5_counterexample_scan_aborts :
    (scanAll envC5 cfgC5 emptyDB).result = .error "EIO" ∧
    (scanAll envC5 cfgC5 emptyDB).db.movies = [] ∧
    (scanAll envC5 cfgC5b emptyDB).db.movies ≠ [] := by
  refine ⟨by decide, by decide, by decide⟩

/-- C5 (amended): a directory-enumeration failure on any configured folder
aborts the whole scan — `scanAll` succeeds exactly when `getMediaFiles`
succeeds on every configured movie folder and every configured series
folder; there is no per-folder guard that would let the scan continue past
a failing folder. -/
theorem c5_folder_failure_aborts (env : Env) (config : ScannerConfig) (db0 : DB) :
    (scanAll env config db0).result.isOk =
      (config.moviePaths.all (fun p => (getMediaFiles env p).isOk) &&
       config.seriesPaths.all (fun p => (getMediaFiles env p).isOk)) := by
  have hm : ∀ (db : DB) (p : String),
      (scanMovieDirectory env db p).isOk = (getMediaFiles env p).isOk := by
    intro db p
    unfold scanMovieDirectory
    cases getMediaFiles env p <;> rfl
  have hs : ∀ (db : DB) (p : String),
      (scanSeriesDirectory env db p).isOk = (getMediaFiles env p).isOk := by
    intro db p
    unfold scanSeriesDirectory
    cases getMediaFiles env p <;> rfl
  simp only [scanAll]
  split
  next e hM =>
    have h2 := congrArg Option.isNone hM
    rw [foldFolders_isNone (scanMovieDirectory env)
      (fun p => (getMediaFiles env p).isOk) hm] at h2
    simp only [Option.isNone_some] at h2
    rw [h2]
    rfl
  next hM =>
    have h2 := congrArg Option.isNone hM
    rw [foldFolders_isNone (scanMovieDirectory env)
      (fun p => (getMediaFiles env p).isOk) hm] at h2
    simp only [Option.isNone_none] at h2
    split
    next e hS =>
      have h3 := congrArg Option.isNone hS
      rw [foldFolders_isNone (scanSeriesDirectory env)
        (fun p => (getMediaFiles env p).isOk) hs] at h3
      simp only [Option.isNone_some] at h3
      rw [h2, h3]
      rfl
    next hS =>
      have h3 := congrArg Option.isNone hS
      rw [foldFolders_isNone (scanSeriesDirectory env)
        (fun p => (getMediaFiles env p).isOk) hs] at h3
      simp only [Option.isNone_none] at h3
      rw [h2, h3]
      rfl

/-- C4 witness: two recordings for the same path starting from the empty
store leave exactly one unresolved row with the latest values. -/
theorem c4_conflict_dedup_witness :
    ((createScanningConflict (createScanningConflict emptyDB .movie "a" "/m/a.mkv" [])
        .series "b" "/m/a.mkv" [.tv tmdbTV0]).conflicts.filter
      (fun c => c.filePath == "/m/a.mkv")).length = 1 ∧
    ∃ c, (createScanningConflict (createScanningConflict emptyDB .movie "a" "/m/a.mkv" [])
        .series "b" "/m/a.mkv" [.tv tmdbTV0]).conflicts.find?
      (fun c => c.filePath == "/m/a.mkv") = some c ∧
      c.resolved = false ∧ c.fileName = "b" ∧ c.possibleMatches = [.tv tmdbTV0] :=
  c4_conflict_dedup emptyDB .movie .series "a" "b" "/m/a.mkv" [] [.tv tmdbTV0] (by decide)

theorem getLast?_cons_append_pair {α : Type} (a c d : α) (X : List α) :
    (a :: (X ++ [c, d])).getLast? = some d := by
  rw [← List.cons_append]
  rw [List.getLast?_append_of_ne_nil (a :: X) (List.cons_ne_nil c [d])]
  rfl

/-- C9: on every `scanAll` run that completes successfully, the reported
progress sequence starts at 0, is monotonically non-decreasing, and its final
checkpoint is 100 carrying the removal-summary payload; directory-scan events
stay within 0-70, the orphan check reports 75, the per-category removal
events stay within 80-95, and the resolved-conflict cleanup reports 95. -/
theorem c9_progress_checkpoints (env : Env) (config : ScannerConfig) (db0 : DB)
    (s : ScanSummary) (h : (scanAll env config db0).result = .ok s) :
    ((scanAll env config db0).trace).head? = some ⟨"Starting media scan", 0, none⟩ ∧
    ((scanAll env config db0).trace).getLast? =
      some ⟨"Media scan and cleanup completed", 100,
        some (.summary s.removedMovies s.removedEpisodes s.removedSeries)⟩ ∧
    List.Chain' (fun a b => a.progress ≤ b.progress) (scanAll env config db0).trace ∧
    ∀ ev ∈ (scanAll env config db0).trace,
      ((ev.status = "Scanning movie directory" ∨ ev.status = "Scanning series directory") →
        ev.progress ≤ 70) ∧
      (ev.status = "Checking for orphaned media entries" → ev.progress = 75) ∧
      ((ev.status = "Removing orphaned movies" ∨ ev.status = "Removing orphaned episodes" ∨
          ev.status = "Removing empty TV series") →
        80 ≤ ev.progress ∧ ev.progress ≤ 95) ∧
      (ev.status = "Cleaning up resolved conflicts" → ev.progress = 95) := by
  simp only [scanAll] at h ⊢
  split at h
  next e heq =>
    simp at h
  next heq =>
    split at h
    next e heq2 =>
      simp at h
    next heq2 =>
      simp only [heq, heq2]
      simp at h
      subst h
      refine ⟨rfl, ?_, ?_, ?_⟩
      · exact getLast?_cons_append_pair _ _ _ _
      · refine List.chain'_cons'.mpr ⟨fun y _ => Nat.zero_le _, ?_⟩
        simp only [List.append_assoc, List.singleton_append]
        refine List.Chain'.append ?_ ?_ ?_
        · refine foldFolders_chain _ _ ?_ _ _ _
          intro j p q
          show j * 70 / (config.moviePaths.length + config.seriesPaths.length) ≤
            (j + 1) * 70 / (config.moviePaths.length + config.seriesPaths.length)
          exact Nat.div_le_div_right (Nat.mul_le_mul_right 70 (Nat.le_succ j))
        · refine List.Chain'.append ?_ ?_ ?_
          · refine foldFolders_chain _ _ ?_ _ _ _
            intro j p q
            show j * 70 / (config.moviePaths.length + config.seriesPaths.length) ≤
              (j + 1) * 70 / (config.moviePaths.length + config.seriesPaths.length)
            exact Nat.div_le_div_right (Nat.mul_le_mul_right 70 (Nat.le_succ j))
          · refine List.chain'_cons'.mpr ⟨?_, ?_⟩
            · apply head?_append_cases
              · intro y hy
                have hb := (cleanupOrphanedEntries_trace_mem env.fileExists env.fileExists
                  _ y (List.mem_of_mem_head? hy)).1.1
                show (75 : Nat) ≤ y.progress
                omega
              · intro y hy
                simp only [List.head?_cons, Option.mem_def, Option.some.injEq] at hy
                subst hy
                decide
            · refine List.Chain'.append (cleanupOrphanedEntries_trace_chain _ _ _) ?_ ?_
              · refine List.chain'_pair.mpr ?_
                show (95 : Nat) ≤ 100
                decide
              · intro x hx y hy
                have hb := (cleanupOrphanedEntries_trace_mem env.fileExists env.fileExists
                  _ x (mem_of_mem_getLast? hx)).1.2
                simp only [List.head?_cons, Option.mem_def, Option.some.injEq] at hy
                subst hy
                show x.progress ≤ (95 : Nat)
                omega
          · intro x hx y hy
            rcases foldFolders_mem _ _ config.seriesPaths _ config.moviePaths.length x
              (mem_of_mem_getLast? hx) with ⟨j, p, hj0, hjlt, rfl⟩
            have h70 := folderProg_le j (config.moviePaths.length + config.seriesPaths.length)
              (by omega)
            simp only [List.cons_append, List.nil_append, List.head?_cons, Option.mem_def,
              Option.some.injEq] at hy
            subst hy
            show j * 70 / (config.moviePaths.length + config.seriesPaths.length) ≤ 75
            omega
        · intro x hx y hy
          rcases foldFolders_mem _ _ config.moviePaths db0 0 x
            (mem_of_mem_getLast? hx) with ⟨j, p, hj0, hjlt, rfl⟩
          revert hy
          apply head?_append_cases
          · intro y hy
            cases hsp : config.seriesPaths with
            | nil =>
              rw [hsp] at hy
              simp [foldFolders] at hy
            | cons q qs =>
              rw [hsp, foldFolders_head] at hy
              simp only [Option.mem_def, Option.some.injEq] at hy
              subst hy
              show j * 70 / (config.moviePaths.length + (q :: qs).length) ≤
                config.moviePaths.length * 70 /
                  (config.moviePaths.length + (q :: qs).length)
              exact Nat.div_le_div_right (Nat.mul_le_mul_right 70 (by omega))
          · intro y hy
            have h70 := folderProg_le j (config.moviePaths.length + config.seriesPaths.length)
              (by omega)
            simp only [List.cons_append, List.nil_append, List.head?_cons, Option.mem_def,
              Option.some.injEq] at hy
            subst hy
            show j * 70 / (config.moviePaths.length + config.seriesPaths.length) ≤ 75
            omega
      · intro ev hev
        simp only [List.mem_cons, List.mem_append, List.mem_singleton,
          List.not_mem_nil, or_false] at hev
        rcases hev with rfl | (((hM | hS) | rfl) | hC) | rfl | rfl
        · exact ⟨by decide, by decide, by decide, by decide⟩
        · rcases foldFolders_mem _ _ config.moviePaths db0 0 ev hM with ⟨j, p, hj0, hjlt, rfl⟩
          refine ⟨fun _ => ?_, fun hc => by simp at hc, fun hc => ?_,
            fun hc => by simp at hc⟩
          · show j * 70 / (config.moviePaths.length + config.seriesPaths.length) ≤ 70
            exact folderProg_le j _ (by omega)
          · rcases hc with hc | hc | hc <;> simp at hc
        · rcases foldFolders_mem _ _ config.seriesPaths _ config.moviePaths.length ev hS with
            ⟨j, p, hj0, hjlt, rfl⟩
          refine ⟨fun _ => ?_, fun hc => by simp at hc, fun hc => ?_,
            fun hc => by simp at hc⟩
          · show j * 70 / (config.moviePaths.length + config.seriesPaths.length) ≤ 70
            exact folderProg_le j _ (by omega)
          · rcases hc with hc | hc | hc <;> simp at hc
        · exact ⟨by decide, by decide, by decide, by decide⟩
        · have hb := cleanupOrphanedEntries_trace_mem env.fileExists env.fileExists _ ev hC
          refine ⟨fun hc => ?_, fun hc => ?_, fun _ => hb.1, fun hc => ?_⟩
          · rcases hc with hc | hc <;> (rw [hc] at hb; exact absurd hb.2 (by decide))
          · rw [hc] at hb
            exact absurd hb.2 (by decide)
          · rw [hc] at hb
            exact absurd hb.2 (by decide)
        · exact ⟨by decide, by decide, by decide, by decide⟩
        · refine ⟨fun hc => ?_, fun hc => ?_, fun hc => ?_, fun hc => ?_⟩
          · simp at hc
          · simp at hc
          · simp at hc
          · simp at hc


/-- C9 witness: the empty-configuration scan succeeds with an all-zero
summary, so the checkpoint properties hold of its concrete trace. -/
theorem c9_progress_checkpoints_witness :
    (scanAll envC3 ⟨[], [], []⟩ emptyDB).result = .ok ⟨0, 0, 0⟩ ∧
    (((scanAll envC3 ⟨[], [], []⟩ emptyDB).trace).head? =
        some ⟨"Starting media scan", 0, none⟩ ∧
      ((scanAll envC3 ⟨[], [], []⟩ emptyDB).trace).getLast? =
        some ⟨"Media scan and cleanup completed", 100, some (.summary 0 0 0)⟩ ∧
      List.Chain' (fun a b => a.progress ≤ b.progress)
        (scanAll envC3 ⟨[], [], []⟩ emptyDB).trace ∧
      ∀ ev ∈ (scanAll envC3 ⟨[], [], []⟩ emptyDB).trace,
        ((ev.status = "Scanning movie directory" ∨
            ev.status = "Scanning series directory") → ev.progress ≤ 70) ∧
        (ev.status = "Checking for orphaned media entries" → ev.progress = 75) ∧
        ((ev.status = "Removing orphaned movies" ∨
            ev.status = "Removing orphaned episodes" ∨
            ev.status = "Removing empty TV series") →
          80 ≤ ev.progress ∧ ev.progress ≤ 95) ∧
        (ev.status = "Cleaning up resolved conflicts" → ev.progress = 95)) :=
  ⟨by decide, c9_progress_checkpoints envC3 ⟨[], [], []⟩ emptyDB ⟨0, 0, 0⟩ (by decide)⟩

/-! ### Lemmas for the rescan-idempotence analysis -/

end Samflix
